import Mathlib

/-!
Verification of the pretix-race monitoring client.

The development shallowly embeds the string-processing, session and
classification logic of `src/pretix_race/{monitor,session,parser,config}.py`
as executable Lean definitions, and proves the documented behavioural
properties about them.  Strings are modelled as `List Char` (Python `str`
values are sequences of characters), Python dicts carrying form data are
modelled as association lists, and Python floats that only ever hold exact
decimal values (poll intervals, backoff ceilings) are modelled as `Rat`.

The regular expressions of parser.py and monitor.py are all of the shape
"literal, then a character-class run, then a literal, ...", so they are
embedded as deterministic scanners built from two primitives: "find the
first occurrence of a literal" (the leftmost-match rule of `re` for a
pattern that begins with a literal) and "take the run of characters in a
class" (the behaviour of `[^x]*` and `[^x]+`).  BeautifulSoup's HTML
parsing is an external library; the document tree it produces is modelled
by the `Node` type, and the tree-walking extraction code of parser.py is
embedded over it directly.

The file is organised as definitions first, then all theorems.
-/

set_option autoImplicit false

namespace PretixRace

/-! ### Generic character-list scanning helpers -/

/-- Exact character comparison (Python's default string comparison). -/
def ceq (a b : Char) : Bool := a == b

/-- Case-insensitive character comparison (`re.IGNORECASE`). -/
def ieq (a b : Char) : Bool := a.toLower == b.toLower

/-- `leadsWith eq pat s`: `s` starts with `pat`, comparing characters with `eq`. -/
def leadsWith (eq : Char → Char → Bool) : List Char → List Char → Bool
  | [], _ => true
  | _ :: _, [] => false
  | a :: as, b :: bs => eq a b && leadsWith eq as bs

/-- `hasSub eq pat s`: `pat` occurs as a contiguous substring of `s`
(Python's `pat in s` when `eq := ceq`). -/
def hasSub (eq : Char → Char → Bool) (pat : List Char) : List Char → Bool
  | [] => leadsWith eq pat []
  | c :: rest => leadsWith eq pat (c :: rest) || hasSub eq pat rest

/-- Python `sub in s` on `str` values. -/
def strContains (s sub : String) : Bool := hasSub ceq sub.toList s.toList

/-- `dropAfterFirst eq pat s`: the remainder of `s` just after the first
occurrence of `pat` (the leftmost match of a regex beginning with the
literal `pat`), or `none` when `pat` does not occur. -/
def dropAfterFirst (eq : Char → Char → Bool) (pat : List Char) : List Char → Option (List Char)
  | [] => if leadsWith eq pat [] then some [] else none
  | c :: rest =>
      if leadsWith eq pat (c :: rest) then some ((c :: rest).drop pat.length)
      else dropAfterFirst eq pat rest

/-- `litCompat eq pat s`: `pat` and `s` agree under `eq` on their common
length, i.e. an occurrence of `pat` could start at the head of `s`
(possibly running on past the end of `s` into whatever follows it). -/
def litCompat (eq : Char → Char → Bool) : List Char → List Char → Bool
  | [], _ => true
  | _ :: _, [] => true
  | a :: as, b :: bs => eq a b && litCompat eq as bs

/-- `noStartIn eq pat s`: no occurrence of `pat` can start at any position
of `s`, whatever text follows `s`. -/
def noStartIn (eq : Char → Char → Bool) (pat : List Char) : List Char → Bool
  | [] => true
  | c :: rest => !(litCompat eq pat (c :: rest)) && noStartIn eq pat rest

/-- Python's `str.strip()` whitespace set (ASCII part). -/
def isPyWhitespace (c : Char) : Bool :=
  c = ' ' || c = '\t' || c = '\n' || c = '\r' || c = '\x0b' || c = '\x0c'

/-- Python `s.strip()`. -/
def pyStrip (s : List Char) : List Char :=
  ((s.dropWhile isPyWhitespace).reverse.dropWhile isPyWhitespace).reverse

/-! ### Reservation-attempt outcome classification (`_add_to_cart`) -/

/-- The checkout path segment tested by `_add_to_cart` (`"checkout" in final_url`). -/
def checkoutSeg : List Char := "checkout".toList

/-- The marketplace path segment tested by `_add_to_cart` (`"secondhand" in final_url`). -/
def secondhandSeg : List Char := "secondhand".toList

/-- Embedding of the cart-add URL resolution in `SecondhandMonitor._add_to_cart`
(monitor.py lines 330-335): an absolute `form_action` is used as is, a
root-relative one is prefixed with the configured base URL, anything else
falls back to the configured cart-add endpoint. -/
def resolveCartUrl (baseUrl cartAddUrl formAction : List Char) : List Char :=
  if leadsWith ceq "http".toList formAction then formAction
  else if leadsWith ceq "/".toList formAction then baseUrl ++ formAction
  else cartAddUrl

/-- Embedding of the outcome classification in `SecondhandMonitor._add_to_cart`
(monitor.py lines 346-363).  The result mirrors the function's
`(success, redirect_url)` return value and is computed purely from the
response status code and the final URL reached after redirects. -/
def addToCartClassify (statusCode : Nat) (finalUrl : List Char) : Bool × Option (List Char) :=
  if hasSub ceq checkoutSeg finalUrl then (true, some finalUrl)
  else if hasSub ceq secondhandSeg finalUrl then (false, none)
  else if statusCode == 200 || statusCode == 302 then (false, none)
  else (false, none)

/-! ### CSRF-token injection on POST (`_do_post`) -/

/-- The conventional anti-forgery form field name. -/
def csrfFieldName : String := "csrfmiddlewaretoken"

/-- Embedding of the CSRF-token injection step of `SecondhandSession._do_post`
(session.py lines 196-198):

    if self.state.csrf_token and "csrfmiddlewaretoken" not in data:
        data["csrfmiddlewaretoken"] = self.state.csrf_token

The stored token is an optional string; Python's truthiness test treats both
`None` and the empty string as "no token stored".  Adding a key absent from a
Python dict appends it in insertion order, modelled by appending to the
association list. -/
def doPostInjectCsrf (csrfToken : Option String) (data : List (String × String)) :
    List (String × String) :=
  match csrfToken with
  | none => data
  | some tok =>
      if tok = "" then data
      else if (data.lookup csrfFieldName).isSome then data
      else data ++ [(csrfFieldName, tok)]

/-! ### Backoff policy (`get_backoff_seconds`) -/

/-- Default `Config.backoff_max_seconds` (config.py line 53). -/
def defaultBackoffMax : Rat := 300

/-- Default `Config.poll_interval_seconds` (config.py line 51). -/
def defaultPollInterval : Rat := 15

/-- Embedding of `SecondhandSession.get_backoff_seconds` (session.py lines
247-257): the configured nominal poll interval when no consecutive errors
have been recorded, otherwise `min(30 * 2**(n-1), backoff_max_seconds)`. -/
def getBackoffSeconds (pollInterval backoffMax : Rat) (consecutiveErrors : Nat) : Rat :=
  if consecutiveErrors = 0 then pollInterval
  else min (30 * 2 ^ (consecutiveErrors - 1)) backoffMax

/-! ### Reconnect-and-retry-once on graceful connection termination -/

/-- Model of the exception value inspected by
`SecondhandSession._is_connection_terminated_error`: the `str(e)` rendering
of the exception and whether it is an instance of
`httpx.RemoteProtocolError`. -/
structure TransportError where
  message : String
  isRemoteProtocolError : Bool
deriving DecidableEq

/-- Embedding of `SecondhandSession._is_connection_terminated_error`
(session.py lines 277-291): the h2 library's `ConnectionTerminated` text in
`str(error)`, or an `httpx.RemoteProtocolError` instance. -/
def isConnectionTerminatedError (e : TransportError) : Bool :=
  hasSub ceq "ConnectionTerminated".toList e.message.toList || e.isRemoteProtocolError

/-- One transport-level attempt either yields a response or raises. -/
inductive AttemptOutcome (R : Type) where
  | ok (response : R)
  | err (e : TransportError)

/-- Result of a Session Manager request: the value or the propagated error,
the index just past the last transport attempt consumed, and how many
reconnects were performed. -/
structure RequestRun (R : Type) where
  result : Except TransportError R
  nextAttempt : Nat
  reconnects : Nat

/-- Embedding of the `retry_on_disconnect=False` branch shared by
`SecondhandSession._do_get` and `._do_post` (session.py lines 133-145 and
200-208): the attempt is issued once and any exception propagates.  The
transport is modelled as the sequence of outcomes of successive wire
attempts. -/
def doRequestNoRetry {R : Type} (transport : Nat → AttemptOutcome R) (i : Nat) :
    RequestRun R :=
  match transport i with
  | .ok r => ⟨.ok r, i + 1, 0⟩
  | .err e => ⟨.error e, i + 1, 0⟩

/-- Embedding of the `retry_on_disconnect=True` entry path of
`SecondhandSession._do_get` / `._do_post`: on a connection-terminated error
the session reconnects (`_reconnect`) and retries exactly once with
`retry_on_disconnect=False`; any other error propagates immediately. -/
def doRequestWithRetry {R : Type} (transport : Nat → AttemptOutcome R) (i : Nat) :
    RequestRun R :=
  match transport i with
  | .ok r => ⟨.ok r, i + 1, 0⟩
  | .err e =>
      if isConnectionTerminatedError e then
        let run := doRequestNoRetry transport (i + 1)
        ⟨run.result, run.nextAttempt, run.reconnects + 1⟩
      else ⟨.error e, i + 1, 0⟩

/-! ### Poll-loop status-code handling (`_poll_once`) -/

/-- Observable effect of the status-code handling of one poll iteration:
whether `session.record_error()` was called and how many extra seconds the
loop sleeps before returning. -/
structure PollStatusEffect where
  recordsError : Bool
  sleepSeconds : Option Int
deriving DecidableEq

/-- The status-code branch taken when no (non-empty) `Retry-After` header is
present (monitor.py lines 190-209). -/
def pollStatusNoHeader (statusCode : Nat) : PollStatusEffect :=
  if statusCode == 429 then ⟨true, some 60⟩
  else if statusCode == 409 then ⟨false, some 5⟩
  else if statusCode == 503 then ⟨true, some 30⟩
  else if statusCode != 200 then ⟨true, none⟩
  else ⟨false, none⟩

/-- Embedding of the status-code handling in `SecondhandMonitor._poll_once`
(monitor.py lines 179-209).  A present, non-empty `Retry-After` header takes
precedence: it records an error and sleeps the parsed number of seconds
(60 when unparseable).  Otherwise the 429/409/503/other table applies. -/
def pollStatusEffect (statusCode : Nat) (retryAfter : Option String) : PollStatusEffect :=
  match retryAfter with
  | some h =>
      if h = "" then pollStatusNoHeader statusCode
      else ⟨true, some (match h.toInt? with | some n => n | none => 60)⟩
  | none => pollStatusNoHeader statusCode

/-- Effect of the handling on the consecutive-error counter
(`record_error` increments it, session.py lines 239-241). -/
def pollStatusNewErrors (eff : PollStatusEffect) (consecutiveErrors : Nat) : Nat :=
  if eff.recordsError then consecutiveErrors + 1 else consecutiveErrors

/-! ### Marketplace-link discovery (`find_marketplace_link`) -/

/-- The `href="` attribute opener scanned for in the event-page HTML. -/
def hrefLit : List Char := "href=\"".toList

/-- The marketplace path segment an anchor target must contain. -/
def marketplaceSeg : List Char := "secondhand/".toList

/-- All `href="..."` attribute values of the page, in document order. -/
def extractHrefValues : List Char → List (List Char)
  | [] => []
  | c :: rest =>
      if leadsWith ceq hrefLit (c :: rest) then
        ((c :: rest).drop hrefLit.length).takeWhile (fun ch => ch ≠ '"') ::
          extractHrefValues rest
      else extractHrefValues rest

/-- Resolution of an anchor target against the configured base URL: a
root-relative URL is prefixed with the base, anything else (an absolute URL)
is used as is. -/
def resolveAgainstBase (baseUrl href : List Char) : List Char :=
  if leadsWith ceq "/".toList href then baseUrl ++ href else href

/-- Modelled from the spec: `find_marketplace_link` is imported from
`pretix_race.parser` by monitor.py and the tests, but its definition is not
present under `src/`.  Per spec §4.2.4 it scans anchor elements whose target
path contains the marketplace path segment, resolves a relative URL against
the configured base URL, and returns `None` when no such anchor exists. -/
def find_marketplace_link (html baseUrl : String) : Option String :=
  match (extractHrefValues html.toList).filter (fun h => hasSub ceq marketplaceSeg h) with
  | [] => none
  | h :: _ => some (String.mk (resolveAgainstBase baseUrl.toList h))

/-! ### Content Extractor data model (parser.py) -/

/-- `TicketListing` (parser.py lines 28-36). -/
structure TicketListing where
  ticket_type : List Char
  price : List Char
  form_action : List Char
  form_data : List (List Char × List Char)
  raw_html : List Char
deriving DecidableEq

/-- `ParseResult` (parser.py lines 39-46). -/
structure ParseResult where
  tickets_available : Bool
  listings : List TicketListing
  csrf_token : Option (List Char)
  error_message : Option (List Char)
deriving DecidableEq

/-! ### CSRF_PATTERN (parser.py line 8) -/

/-- The literal part of `CSRF_PATTERN`: `name="csrfmiddlewaretoken" value="`. -/
def csrfLit : List Char := "name=\"csrfmiddlewaretoken\" value=\"".toList

/-- Embedding of `CSRF_PATTERN.search(html)` followed by `.group(1)`
(parser.py lines 8 and 60-62).  The pattern is the literal `csrfLit`
followed by a captured `[^"]*` run and a closing quote; the leftmost match
therefore captures the quote-free run after the first occurrence of the
literal, provided a closing quote follows.  When the first occurrence has no
closing quote the search fails altogether: a later occurrence of the literal
would itself contain a quote inside the quote-free remainder, which is
impossible. -/
def csrfRegexSearch (html : List Char) : Option (List Char) :=
  match dropAfterFirst ceq csrfLit html with
  | none => none
  | some rest =>
      if (rest.dropWhile (fun ch => ch ≠ '"')).isEmpty then none
      else some (rest.takeWhile (fun ch => ch ≠ '"'))

/-! ### Fast-path listing extraction (`_extract_listings_fast`, parser.py)

`TICKET_PANEL_PATTERN` (parser.py lines 18-25) is, with `re.IGNORECASE` and
`re.DOTALL`:

    <div class="panel panel-default">
    .*?<h3 class="panel-title">([^<]+)</h3>
    .*?<h2 class="text-primary">([^<]+)</h2>
    .*?<form[^>]*action="([^"]*secondhand/buy/[^"]*)"[^>]*>
    .*?name="csrfmiddlewaretoken"[^>]*value="([^"]*)"

Each lazy gap `.*?L` is embedded as "find the first occurrence of the
literal `L`"; each `[^x]*` / `[^x]+` run is a `takeWhile`.  When a later
obligation of the pattern fails at the first candidate position the real
regex engine would resume the lazy search at later positions; the scanner
returns `none` instead.  The two coincide on pages of the expected panel
shape, where the first candidate always succeeds. -/

def panelAnchor : List Char := "<div class=\"panel panel-default\">".toList

def h3Open : List Char := "<h3 class=\"panel-title\">".toList

def h3Close : List Char := "</h3>".toList

def h2Open : List Char := "<h2 class=\"text-primary\">".toList

def h2Close : List Char := "</h2>".toList

def formOpen : List Char := "<form".toList

def actionOpen : List Char := "action=\"".toList

def valueOpen : List Char := "value=\"".toList

def csrfNameLit : List Char := "name=\"csrfmiddlewaretoken\"".toList

def buyPathSeg : List Char := "secondhand/buy/".toList

def methodPostLit : List Char := "method=\"post\"".toList

def inputOpen : List Char := "<input".toList

/-- `[^>]*action="([^"]*secondhand/buy/[^"]*)"[^>]*>` from the position just
after `<form`: the span skipped before `action="` may not contain `>`, the
captured value runs to the next quote and must contain the buy-path segment,
and the form tag must close with `>`.  Returns the capture and the remainder
just after that closing `>`. -/
def matchFormAction (r : List Char) : Option (List Char × List Char) :=
  match dropAfterFirst ieq actionOpen r with
  | none => none
  | some afterA =>
      if !((r.take (r.length - (afterA.length + actionOpen.length))).all
            (fun ch => ch ≠ '>')) then none
      else
        let v := afterA.takeWhile (fun ch => ch ≠ '"')
        match afterA.dropWhile (fun ch => ch ≠ '"') with
        | [] => none
        | _ :: afterQ =>
            if !(hasSub ieq buyPathSeg v) then none
            else
              match afterQ.dropWhile (fun ch => ch ≠ '>') with
              | [] => none
              | _ :: afterGt => some (v, afterGt)

/-- `[^>]*value="([^"]*)"` from the position just after the
`name="csrfmiddlewaretoken"` literal: the span skipped before `value="` may
not contain `>`, the capture runs to the closing quote.  Returns the capture
and the remainder just after the closing quote (the match end). -/
def matchCsrfValue (r : List Char) : Option (List Char × List Char) :=
  match dropAfterFirst ieq valueOpen r with
  | none => none
  | some afterV =>
      if !((r.take (r.length - (afterV.length + valueOpen.length))).all
            (fun ch => ch ≠ '>')) then none
      else
        let v := afterV.takeWhile (fun ch => ch ≠ '"')
        match afterV.dropWhile (fun ch => ch ≠ '"') with
        | [] => none
        | _ :: afterQ => some (v, afterQ)

/-- One `TICKET_PANEL_PATTERN` match attempt from the current scan position:
the produced listing (parser.py lines 119-131: stripped type and price, raw
action and token, the token under the conventional field name) and the
remainder of the input after the match end. -/
def stepTicketPanel (xs : List Char) : Option (TicketListing × List Char) :=
  match dropAfterFirst ieq panelAnchor xs with
  | none => none
  | some r0 =>
  match dropAfterFirst ieq h3Open r0 with
  | none => none
  | some r1 =>
    let g1 := r1.takeWhile (fun ch => ch ≠ '<')
    let r1x := r1.dropWhile (fun ch => ch ≠ '<')
    if g1.isEmpty then none
    else if !(leadsWith ieq h3Close r1x) then none
    else
    match dropAfterFirst ieq h2Open (r1x.drop h3Close.length) with
    | none => none
    | some r2 =>
      let g2 := r2.takeWhile (fun ch => ch ≠ '<')
      let r2x := r2.dropWhile (fun ch => ch ≠ '<')
      if g2.isEmpty then none
      else if !(leadsWith ieq h2Close r2x) then none
      else
      match dropAfterFirst ieq formOpen (r2x.drop h2Close.length) with
      | none => none
      | some r3 =>
      match matchFormAction r3 with
      | none => none
      | some g3r =>
      match dropAfterFirst ieq csrfNameLit g3r.2 with
      | none => none
      | some r5 =>
      match matchCsrfValue r5 with
      | none => none
      | some g4r =>
        some ({ ticket_type := pyStrip g1, price := pyStrip g2,
                form_action := g3r.1,
                form_data := [("csrfmiddlewaretoken".toList, g4r.1)],
                raw_html := [] }, g4r.2)

/-- `TICKET_PANEL_PATTERN.finditer`: successive non-overlapping matches, each
search resuming at the previous match's end.  The input length bounds the
match count, so it serves as fuel. -/
def ticketPanelScanAux : Nat → List Char → List TicketListing
  | 0, _ => []
  | fuel + 1, xs =>
      match stepTicketPanel xs with
      | none => []
      | some lr => lr.1 :: ticketPanelScanAux fuel lr.2

def ticketPanelScan (xs : List Char) : List TicketListing := ticketPanelScanAux xs.length xs

/-- One `BUY_FORM_PATTERN` (parser.py lines 11-15) match attempt:

    <form[^>]*method="post"[^>]*action="([^"]*secondhand/buy/[^"]*)"[^>]*>
    [^<]*<input[^>]*name="csrfmiddlewaretoken"[^>]*value="([^"]*)"

producing the fallback listing of parser.py lines 135-145. -/
def stepBuyForm (xs : List Char) : Option (TicketListing × List Char) :=
  match dropAfterFirst ieq formOpen xs with
  | none => none
  | some r0 =>
  match dropAfterFirst ieq methodPostLit r0 with
  | none => none
  | some r1 =>
      if !((r0.take (r0.length - (r1.length + methodPostLit.length))).all
            (fun ch => ch ≠ '>')) then none
      else
      match matchFormAction r1 with
      | none => none
      | some g1r =>
          let r2x := g1r.2.dropWhile (fun ch => ch ≠ '<')
          if !(leadsWith ieq inputOpen r2x) then none
          else
          match dropAfterFirst ieq csrfNameLit (r2x.drop inputOpen.length) with
          | none => none
          | some r3 =>
              if !(((r2x.drop inputOpen.length).take
                      ((r2x.drop inputOpen.length).length -
                        (r3.length + csrfNameLit.length))).all
                    (fun ch => ch ≠ '>')) then none
              else
              match matchCsrfValue r3 with
              | none => none
              | some g2r =>
                  some ({ ticket_type := "Ticket".toList, price := "Unknown".toList,
                          form_action := g1r.1,
                          form_data := [("csrfmiddlewaretoken".toList, g2r.1)],
                          raw_html := [] }, g2r.2)

def buyFormScanAux : Nat → List Char → List TicketListing
  | 0, _ => []
  | fuel + 1, xs =>
      match stepBuyForm xs with
      | none => []
      | some lr => lr.1 :: buyFormScanAux fuel lr.2

def buyFormScan (xs : List Char) : List TicketListing := buyFormScanAux xs.length xs

/-- Embedding of `_extract_listings_fast` (parser.py lines 110-147): all
panel-pattern matches, falling back to the simpler buy-form pattern when the
panel pattern matched nothing. -/
def extract_listings_fast (html : List Char) : List TicketListing :=
  let listings := ticketPanelScan html
  if listings.isEmpty then buyFormScan html else listings

/-! ### Document-tree model (BeautifulSoup output) -/

/-- Model of a parsed HTML document tree as produced by
`BeautifulSoup(html, "lxml")`.  Tag names are stored lowercased (as the
HTML parser normalises them), attribute values are plain strings. -/
inductive Node where
  | elem (tag : String) (attrs : List (String × String)) (children : List Node)
  | text (s : String)

def nodeTag : Node → Option String
  | .elem t _ _ => some t
  | .text _ => none

def nodeAttr : Node → String → Option String
  | .elem _ attrs _, k => attrs.lookup k
  | .text _, _ => none

/-- Split a character list on single spaces (Python `s.split(" ")`). -/
def splitOnSpaceAux : List Char → List Char → List (List Char)
  | acc, [] => [acc.reverse]
  | acc, c :: rest =>
      if c = ' ' then acc.reverse :: splitOnSpaceAux [] rest
      else splitOnSpaceAux (c :: acc) rest

/-- BeautifulSoup's multi-valued `class` attribute: the whitespace-separated
token list (empty-token list when the attribute is absent, which no
membership test matches). -/
def nodeClasses (n : Node) : List (List Char) :=
  splitOnSpaceAux [] ((nodeAttr n "class").getD "").toList

mutual

/-- All descendants of a node in document (pre-)order, excluding the node
itself, each paired with its direct parent. -/
def nodeDescendants : Node → List (Node × Node)
  | .elem t a cs => childDescendants (.elem t a cs) cs
  | .text _ => []

def childDescendants (parent : Node) : List Node → List (Node × Node)
  | [] => []
  | c :: cs => (c, parent) :: (nodeDescendants c ++ childDescendants parent cs)

end

def descendantNodes (n : Node) : List Node := (nodeDescendants n).map Prod.fst

mutual

/-- BeautifulSoup `get_text()`: all text pieces of the subtree concatenated
in document order. -/
def nodeTexts : Node → List Char
  | .text s => s.toList
  | .elem _ _ cs => childTexts cs

def childTexts : List Node → List Char
  | [] => []
  | c :: cs => nodeTexts c ++ childTexts cs

end

mutual

/-- BeautifulSoup `get_text(strip=True)`: each text piece stripped. -/
def nodeTextsStripped : Node → List Char
  | .text s => pyStrip s.toList
  | .elem _ _ cs => childTextsStripped cs

def childTextsStripped : List Node → List Char
  | [] => []
  | c :: cs => nodeTextsStripped c ++ childTextsStripped cs

end

/-- BeautifulSoup `tag.string`: the single string of a tag that contains
exactly one child, recursing through single-child tags. -/
def nodeString : Node → Option String
  | .text s => some s
  | .elem _ _ cs => match cs with
      | [c] => nodeString c
      | _ => none

/-- HTML void elements, serialised without a closing tag. -/
def voidTags : List String := ["input", "hr", "br", "meta", "img"]

def renderAttrs : List (String × String) → List Char
  | [] => []
  | (k, v) :: rest => ' ' :: (k.toList ++ '=' :: '"' :: v.toList ++ '"' :: renderAttrs rest)

mutual

/-- Serialisation of a tree back to markup (Python `str(tag)`), used by the
extractor only for the diagnostic `raw_html` field. -/
def renderNode : Node → List Char
  | .text s => s.toList
  | .elem t a cs =>
      if voidTags.contains t then '<' :: (t.toList ++ renderAttrs a ++ ['>'])
      else '<' :: (t.toList ++ renderAttrs a ++ ['>'] ++ renderChildren cs ++
             '<' :: '/' :: (t.toList ++ ['>']))

def renderChildren : List Node → List Char
  | [] => []
  | c :: cs => renderNode c ++ renderChildren cs

end

/-- Lowercased character list of a string (Python `.lower()`). -/
def lowerList (s : String) : List Char := s.toList.map Char.toLower

/-- The `class_=lambda c: c and PAT in str(c).lower()` matchers of parser.py:
some class token contains one of the patterns, case-insensitively. -/
def classContainsAny (n : Node) (pats : List (List Char)) : Bool :=
  (nodeClasses n).any (fun cl => pats.any (fun p => hasSub ceq p (cl.map Char.toLower)))

/-- `soup.find_all("form", method=lambda x: x and x.lower() == "post")`. -/
def isPostForm (n : Node) : Bool :=
  nodeTag n == some "form" &&
    (match nodeAttr n "method" with
     | some m => !(m == "") && (lowerList m == "post".toList)
     | none => false)

/-- The buy-control search of parser.py lines 190-198: a button or input
whose string mentions "buy", else a submit button. -/
def buyControl (form : Node) : Option Node :=
  match ((descendantNodes form).filter (fun n =>
      (nodeTag n == some "button" || nodeTag n == some "input") &&
      (match nodeString n with
       | some s => !(s == "") && hasSub ceq "buy".toList (lowerList s)
       | none => false))).head? with
  | some b => some b
  | none =>
      ((descendantNodes form).filter (fun n =>
          nodeTag n == some "button" && nodeAttr n "type" == some "submit")).head?

/-- Python dict assignment `d[k] = v` on an insertion-ordered mapping. -/
def assocInsert (m : List (List Char × List Char)) (k v : List Char) :
    List (List Char × List Char) :=
  if (m.lookup k).isSome then m.map (fun p => if p.1 == k then (k, v) else p)
  else m ++ [(k, v)]

def titleTags : List String := ["h3", "h4", "h5", "strong", "span"]

/-- Embedding of `_parse_form_listing` (parser.py lines 240-278). -/
def parse_form_listing (form : Node) (parent : Option Node) : TicketListing :=
  let formData := ((descendantNodes form).filter
      (fun n => nodeTag n == some "input")).foldl
      (fun m inp =>
        match nodeAttr inp "name", nodeAttr inp "value" with
        | some nm, some v => assocInsert m nm.toList v.toList
        | _, _ => m) []
  let price :=
    match ((descendantNodes form).filter (fun n =>
        (nodeTag n).isSome && classContainsAny n ["price".toList])).head? with
    | some pe => nodeTextsStripped pe
    | none => "Unknown".toList
  let ticketType :=
    match parent with
    | some par =>
        match ((descendantNodes par).filter (fun n =>
            (titleTags.any (fun t => nodeTag n == some t)) &&
            classContainsAny n ["title".toList])).head? with
        | some te => nodeTextsStripped te
        | none => "Ticket".toList
    | none => "Ticket".toList
  { ticket_type := ticketType, price := price,
    form_action := ((nodeAttr form "action").getD "").toList,
    form_data := formData, raw_html := (renderNode form).take 500 }

def ticketClassTokens : List (List Char) :=
  ["ticket".toList, "listing".toList, "product-row".toList]

/-- Strategy-2 element filter: a div/article/tr whose class names mention a
ticket/listing/product-row token (parser.py lines 205-209). -/
def isTicketClassElem (n : Node) : Bool :=
  (["div", "article", "tr"].any (fun t => nodeTag n == some t)) &&
    classContainsAny n ticketClassTokens

/-- Strategy-3 link filter: an anchor whose href mentions a cart endpoint
(parser.py line 222). -/
def isCartLink (n : Node) : Bool :=
  nodeTag n == some "a" &&
    (match nodeAttr n "href" with
     | some h => !(h == "") && hasSub ceq "cart".toList (lowerList h)
     | none => false)

/-- Embedding of `_extract_listings` (parser.py lines 169-237): the three
strategies run in order over one accumulator, preserving discovery order;
strategy 2 suppresses listings already found, strategy 3 does not. -/
def extract_listings_dom (soup : Node) : List TicketListing :=
  let pairs := nodeDescendants soup
  let l1 := (pairs.filter (fun p => isPostForm p.1)).foldl
      (fun acc p =>
        if (nodeClasses p.1).contains "form-inline".toList then acc
        else if (buyControl p.1).isSome then acc ++ [parse_form_listing p.1 (some p.2)]
        else acc) []
  let l2 := (pairs.filter (fun p => isTicketClassElem p.1)).foldl
      (fun acc p =>
        match ((nodeDescendants p.1).filter (fun q => nodeTag q.1 == some "form")).head? with
        | some q =>
            let listing := parse_form_listing q.1 (some q.2)
            if acc.contains listing then acc else acc ++ [listing]
        | none => acc) l1
  (pairs.filter (fun p => isCartLink p.1)).foldl
      (fun acc p =>
        match nodeAttr p.1 "href" with
        | some href =>
            acc ++ [{ ticket_type := "Unknown".toList, price := "Unknown".toList,
                      form_action := href.toList, form_data := [],
                      raw_html := renderNode p.1 }]
        | none => acc) l2

/-- Embedding of `_extract_csrf_token` (parser.py lines 150-166): a
`csrf-token` meta tag's content, else a `csrfmiddlewaretoken` hidden input's
value. -/
def extract_csrf_token_dom (soup : Node) : Option (List Char) :=
  let fromMeta :=
    match ((descendantNodes soup).filter (fun n =>
        nodeTag n == some "meta" && nodeAttr n "name" == some "csrf-token")).head? with
    | some m => nodeAttr m "content"
    | none => none
  match fromMeta with
  | some c => some c.toList
  | none =>
      match ((descendantNodes soup).filter (fun n =>
          nodeTag n == some "input" &&
          nodeAttr n "name" == some "csrfmiddlewaretoken")).head? with
      | some inp => (nodeAttr inp "value").map String.toList
      | none => none

/-! ### `parse_secondhand_page` (parser.py lines 49-107) -/

/-- The "no inventory" marker checked by parser.py (`"No tickets available"`). -/
def noTicketsShortMarker : List Char := "No tickets available".toList

/-- The buy-endpoint fragment guarding the fast path. -/
def buyUrlMarker : List Char := "/secondhand/buy/".toList

/-- The "no tickets" double check of the slow path (parser.py lines 90-91):
an `alert-warning` div whose text carries the marker. -/
def slowNoTickets (soup : Node) : Bool :=
  match ((descendantNodes soup).filter (fun n =>
      nodeTag n == some "div" && (nodeClasses n).contains "alert-warning".toList)).head? with
  | some d => hasSub ceq noTicketsShortMarker (nodeTexts d)
  | none => false

/-- The slow path of `parse_secondhand_page` (parser.py lines 83-107),
operating on the parsed document tree. -/
def parseSlowPath (soup : Node) : ParseResult :=
  let csrf := extract_csrf_token_dom soup
  if slowNoTickets soup then
    { tickets_available := false, listings := [], csrf_token := csrf,
      error_message := none }
  else
    let listings := extract_listings_dom soup
    { tickets_available := decide (0 < listings.length), listings := listings,
      csrf_token := csrf, error_message := none }

/-- Embedding of `parse_secondhand_page` (parser.py lines 49-107).  The
external HTML parser `BeautifulSoup(html, "lxml")` is passed as the
document-tree oracle `bs`; the fast paths never consult it. -/
def parse_secondhand_page (bs : String → Node) (html : String) : ParseResult :=
  if hasSub ceq noTicketsShortMarker html.toList then
    { tickets_available := false, listings := [],
      csrf_token := csrfRegexSearch html.toList, error_message := none }
  else if hasSub ceq buyUrlMarker html.toList then
    match extract_listings_fast html.toList with
    | [] => parseSlowPath (bs html)
    | l :: ls =>
        { tickets_available := true, listings := l :: ls,
          csrf_token := l.form_data.lookup ("csrfmiddlewaretoken".toList),
          error_message := none }
  else parseSlowPath (bs html)

/-! ### Baseline digest normalisation (`_is_baseline_response`, monitor.py) -/

/-- `DYNAMIC_PATTERNS` entry 1 (monitor.py line 44): the literal part of
`data-now="[^"]*"`. -/
def dataNowLit : List Char := "data-now=\"".toList

/-- `DYNAMIC_PATTERNS` entry 3 (monitor.py line 46): the literal part of
`\?version=[a-f0-9-]+`. -/
def versionLit : List Char := "?version=".toList

/-- The character class `[a-f0-9-]` of the cache-busting version pattern. -/
def isVersionChar (c : Char) : Bool :=
  ('a' ≤ c && c ≤ 'f') || ('0' ≤ c && c ≤ '9') || c = '-'

/-- `pattern.sub("", s)` for a pattern `LIT[^"]*"`: scan left to right; at a
position where the literal matches and a closing quote follows the quote-free
run, remove through that quote and resume after it; otherwise keep the
character and move on.  The input length bounds the number of scan steps. -/
def stripQuotedAux (lit : List Char) : Nat → List Char → List Char
  | _, [] => []
  | 0, xs => xs
  | fuel + 1, c :: cs =>
      if leadsWith ceq lit (c :: cs) then
        match ((c :: cs).drop lit.length).dropWhile (fun ch => ch ≠ '"') with
        | [] => c :: stripQuotedAux lit fuel cs
        | _ :: tail => stripQuotedAux lit fuel tail
      else c :: stripQuotedAux lit fuel cs

def stripQuoted (lit : List Char) (xs : List Char) : List Char :=
  stripQuotedAux lit xs.length xs

/-- `pattern.sub("", s)` for `\?version=[a-f0-9-]+`: at an occurrence of the
literal followed by at least one version character, remove the literal and
the maximal run and resume after it. -/
def stripVersionAux : Nat → List Char → List Char
  | _, [] => []
  | 0, xs => xs
  | fuel + 1, c :: cs =>
      if leadsWith ceq versionLit (c :: cs) then
        if (((c :: cs).drop versionLit.length).takeWhile isVersionChar).isEmpty then
          c :: stripVersionAux fuel cs
        else stripVersionAux fuel (((c :: cs).drop versionLit.length).dropWhile isVersionChar)
      else c :: stripVersionAux fuel cs

def stripVersion (xs : List Char) : List Char := stripVersionAux xs.length xs

/-- The normalisation `_is_baseline_response` applies before hashing
(monitor.py lines 233-236): each `DYNAMIC_PATTERNS` entry substituted by the
empty string, in list order. -/
def stripDynamic (xs : List Char) : List Char :=
  stripVersion (stripQuoted csrfLit (stripQuoted dataNowLit xs))

/-- `NO_TICKETS_MARKER` (monitor.py line 22). -/
def noTicketsMarker : List Char := "No tickets available at the moment".toList

/-- The content digest of monitor.py line 238, with the MD5 hex digest
abstracted as a function parameter (digest equality only ever arises from
equality of the normalised content). -/
def contentDigest (md5hex : List Char → List Char) (html : List Char) : List Char :=
  md5hex (stripDynamic html)

/-- Embedding of `SecondhandMonitor._is_baseline_response` (monitor.py lines
223-247), with the mutable `_baseline_hash` attribute passed and returned
explicitly: the marker must be present; the first marker-bearing response
establishes the baseline and matches; later ones match when their digest
equals the baseline. -/
def is_baseline_response (md5hex : List Char → List Char)
    (baseline : Option (List Char)) (html : List Char) : Bool × Option (List Char) :=
  if !(hasSub ceq noTicketsMarker html) then (false, baseline)
  else
    match baseline with
    | none => (true, some (contentDigest md5hex html))
    | some b => (contentDigest md5hex html == b, some b)

/-- A rendered `data-now="..."` attribute (dynamic timestamp slot). -/
def dataNowSlot (v : List Char) : List Char := dataNowLit ++ v ++ ['"']

/-- A rendered anti-forgery hidden-field fragment (dynamic token slot). -/
def csrfFieldSlot (v : List Char) : List Char := csrfLit ++ v ++ ['"']

/-- A rendered cache-busting version query fragment (dynamic version slot). -/
def versionSlot (v : List Char) : List Char := versionLit ++ v

/-! ### The expected listing-panel page shape (fast/slow path equivalence)

A page of the expected pretix listing shape: a `main` container with a
heading, the inline GET filter form, a separator, and one
"panel panel-default" per listing, each holding the ticket type in an `h3`,
the display price in an `h2`, and a POST form whose action is the
reservation endpoint, with the anti-forgery hidden input and a submit
button.  The markup string and the parsed tree are the two views of this
page that the fast and the structural extraction paths consume. -/

structure PanelData where
  ticketType : String
  price : String
  action : String
  csrf : String
deriving DecidableEq

def panelA : List Char :=
  ("<div class=\"panel panel-default\">" ++
   "<div class=\"panel-heading\"><h3 class=\"panel-title\">").toList

def panelB : List Char :=
  "</h3></div><div class=\"panel-body\"><h2 class=\"text-primary\">".toList

def panelC : List Char := "</h2><form method=\"post\" action=\"".toList

def panelD : List Char :=
  "\"><input type=\"hidden\" name=\"csrfmiddlewaretoken\" value=\"".toList

def panelETail : List Char :=
  (">" ++ "<button type=\"submit\" class=\"btn btn-primary\">Buy</button>" ++
   "</form></div></div>").toList

def panelE : List Char := '"' :: panelETail

/-- The markup of one listing panel. -/
def panelRender (p : PanelData) : List Char :=
  panelA ++ p.ticketType.toList ++ panelB ++ p.price.toList ++
    panelC ++ p.action.toList ++ panelD ++ p.csrf.toList ++ panelE

def pageHeader : List Char :=
  ("<main id=\"content\"><h2>Ticket Marketplace</h2>" ++
   "<form class=\"form-inline text-right\" method=\"get\">" ++
   "<button type=\"submit\">Apply</button></form><hr>").toList

def pageFooter : List Char := "</main>".toList

/-- The markup of the whole page. -/
def marketplacePageHtml (ps : List PanelData) : List Char :=
  pageHeader ++ (ps.map panelRender).flatten ++ pageFooter

def panelInputNode (p : PanelData) : Node :=
  .elem "input" [("type", "hidden"), ("name", "csrfmiddlewaretoken"), ("value", p.csrf)] []

def panelButtonNode : Node :=
  .elem "button" [("type", "submit"), ("class", "btn btn-primary")] [.text "Buy"]

/-- The reservation form node of one panel. -/
def panelFormNode (p : PanelData) : Node :=
  .elem "form" [("method", "post"), ("action", p.action)]
    [panelInputNode p, panelButtonNode]

def panelH3Node (p : PanelData) : Node :=
  .elem "h3" [("class", "panel-title")] [.text p.ticketType]

def panelHeadingNode (p : PanelData) : Node :=
  .elem "div" [("class", "panel-heading")] [panelH3Node p]

def panelH2Node (p : PanelData) : Node :=
  .elem "h2" [("class", "text-primary")] [.text p.price]

def panelBodyNode (p : PanelData) : Node :=
  .elem "div" [("class", "panel-body")] [panelH2Node p, panelFormNode p]

/-- The parsed tree of one listing panel (the tree the HTML parser produces
for `panelRender p`). -/
def panelDom (p : PanelData) : Node :=
  .elem "div" [("class", "panel panel-default")]
    [panelHeadingNode p, panelBodyNode p]

def pageTitleNode : Node := .elem "h2" [] [.text "Ticket Marketplace"]

def filterButtonNode : Node := .elem "button" [("type", "submit")] [.text "Apply"]

def filterFormNode : Node :=
  .elem "form" [("class", "form-inline text-right"), ("method", "get")] [filterButtonNode]

def hrNode : Node := .elem "hr" [] []

def pageHeaderNodes : List Node := [pageTitleNode, filterFormNode, hrNode]

/-- The parsed tree of the whole page. -/
def marketplacePageDom (ps : List PanelData) : Node :=
  .elem "main" [("id", "content")] (pageHeaderNodes ++ ps.map panelDom)

/-- Well-formedness of the dynamic panel fields: type and price are
non-empty and contain no markup opener; the action is quote- and
bracket-free and contains the reservation-endpoint segment; the token is
quote-free. -/
def panelWf (p : PanelData) : Bool :=
  !p.ticketType.toList.isEmpty && p.ticketType.toList.all (fun c => c ≠ '<') &&
  (!p.price.toList.isEmpty && p.price.toList.all (fun c => c ≠ '<')) &&
  p.action.toList.all (fun c => c ≠ '"' && c ≠ '>') &&
  hasSub ieq buyPathSeg p.action.toList &&
  p.csrf.toList.all (fun c => c ≠ '"')

/-- Segments of the panel markup between the pattern's literals, used to
trace the scanner through one panel. -/
def preH3 : List Char := "<div class=\"panel-heading\">".toList

def preH2 : List Char := "</div><div class=\"panel-body\">".toList

def formPre : List Char := " method=\"post\" ".toList

def inputPre : List Char := "<input type=\"hidden\" ".toList

/-- Scanner state just after the anti-forgery `value="` opener. -/
def panelTail5 (p : PanelData) (rest : List Char) : List Char :=
  p.csrf.toList ++ ('"' :: (panelETail ++ rest))

/-- Scanner state just after the `action="` opener. -/
def panelTail4 (p : PanelData) (rest : List Char) : List Char :=
  p.action.toList ++
    ('"' :: ('>' :: (inputPre ++ (csrfNameLit ++ ([' '] ++ (valueOpen ++ panelTail5 p rest))))))

/-- Scanner state just after the `<form` literal. -/
def panelTail3 (p : PanelData) (rest : List Char) : List Char :=
  formPre ++ (actionOpen ++ panelTail4 p rest)

/-- Scanner state just after the price heading opener. -/
def panelTail2 (p : PanelData) (rest : List Char) : List Char :=
  p.price.toList ++ (h2Close ++ (formOpen ++ panelTail3 p rest))

/-- Scanner state just after the ticket-type heading opener. -/
def panelTail1 (p : PanelData) (rest : List Char) : List Char :=
  p.ticketType.toList ++ (h3Close ++ (preH2 ++ (h2Open ++ panelTail2 p rest)))

/-- Scanner state just after the panel anchor. -/
def panelTail0 (p : PanelData) (rest : List Char) : List Char :=
  preH3 ++ (h3Open ++ panelTail1 p rest)

/-- The listing the fast path produces for one panel. -/
def fastPanelListing (p : PanelData) : TicketListing :=
  { ticket_type := pyStrip p.ticketType.toList, price := pyStrip p.price.toList,
    form_action := p.action.toList,
    form_data := [("csrfmiddlewaretoken".toList, p.csrf.toList)], raw_html := [] }

/-- The listing the structural path produces for one panel. -/
def slowPanelListing (p : PanelData) : TicketListing :=
  { ticket_type := "Ticket".toList, price := "Unknown".toList,
    form_action := p.action.toList,
    form_data := [("csrfmiddlewaretoken".toList, p.csrf.toList)],
    raw_html := (renderNode (panelFormNode p)).take 500 }

/-!
## Theorems
-/

/-! ### Helper lemmas on the scanning primitives -/

theorem leadsWith_refl_append (eq : Char → Char → Bool)
    (pat rest : List Char) (h : ∀ c ∈ pat, eq c c = true) :
    leadsWith eq pat (pat ++ rest) = true := by
  induction pat with
  | nil => rfl
  | cons a as ih =>
      simp only [List.cons_append, leadsWith, Bool.and_eq_true]
      exact ⟨h a (by simp), ih (fun c hc => h c (by simp [hc]))⟩

theorem ceq_refl (c : Char) : ceq c c = true := by simp [ceq]

theorem ieq_refl (c : Char) : ieq c c = true := by simp [ieq]

theorem lookup_append_single {data : List (String × String)} {k : String} {v : String}
    (h : data.lookup k = none) : (data ++ [(k, v)]).lookup k = some v := by
  induction data with
  | nil => simp [List.lookup]
  | cons p ps ih =>
      obtain ⟨a, b⟩ := p
      simp only [List.lookup, List.cons_append] at h ⊢
      cases hk : (k == a) with
      | true => simp [hk] at h
      | false => simp only [hk] at h ⊢; exact ih h

theorem litCompat_of_leadsWith (eq : Char → Char → Bool) :
    ∀ (s pat t : List Char), leadsWith eq pat (s ++ t) = true → litCompat eq pat s = true := by
  intro s
  induction s with
  | nil => intro pat t _; cases pat <;> rfl
  | cons b bs ih =>
      intro pat t h
      cases pat with
      | nil => rfl
      | cons a as =>
          simp only [List.cons_append, leadsWith, Bool.and_eq_true] at h
          simp only [litCompat, Bool.and_eq_true]
          exact ⟨h.1, ih as t h.2⟩

theorem litCompat_mono_append (eq : Char → Char → Bool) :
    ∀ (s pat t : List Char), litCompat eq pat (s ++ t) = true → litCompat eq pat s = true := by
  intro s
  induction s with
  | nil => intro pat t _; cases pat <;> rfl
  | cons b bs ih =>
      intro pat t h
      cases pat with
      | nil => rfl
      | cons a as =>
          simp only [List.cons_append, litCompat, Bool.and_eq_true] at h
          simp only [litCompat, Bool.and_eq_true]
          exact ⟨h.1, ih as t h.2⟩

theorem leadsWith_false_of_litCompat_false (eq : Char → Char → Bool)
    {pat s : List Char} (t : List Char) (h : litCompat eq pat s = false) :
    leadsWith eq pat (s ++ t) = false := by
  cases hl : leadsWith eq pat (s ++ t) with
  | false => rfl
  | true => exact absurd (litCompat_of_leadsWith eq s pat t hl) (by simp [h])

theorem leadsWith_false_cons (eq : Char → Char → Bool) {pat : List Char}
    (c : Char) (cs t : List Char) (h : litCompat eq pat (c :: cs) = false) :
    leadsWith eq pat (c :: (cs ++ t)) = false := by
  have := leadsWith_false_of_litCompat_false eq (s := c :: cs) t h
  simpa using this

theorem noStartIn_cons_iff (eq : Char → Char → Bool) (pat : List Char)
    (c : Char) (cs : List Char) :
    noStartIn eq pat (c :: cs) = true ↔
      litCompat eq pat (c :: cs) = false ∧ noStartIn eq pat cs = true := by
  simp [noStartIn]

theorem noStartIn_append (eq : Char → Char → Bool) (pat : List Char) :
    ∀ (a b : List Char), noStartIn eq pat a = true → noStartIn eq pat b = true →
      noStartIn eq pat (a ++ b) = true := by
  intro a b
  induction a with
  | nil => intro _ hb; simpa
  | cons c cs ih =>
      intro ha hb
      obtain ⟨h1, h2⟩ := (noStartIn_cons_iff eq pat c cs).mp ha
      rw [List.cons_append, noStartIn_cons_iff]
      refine ⟨?_, ih h2 hb⟩
      cases hlc : litCompat eq pat (c :: (cs ++ b)) with
      | false => rfl
      | true =>
          have : litCompat eq pat (c :: cs) = true :=
            litCompat_mono_append eq (c :: cs) pat b (by simpa using hlc)
          rw [this] at h1; exact absurd h1 (by simp)

theorem dropAfterFirst_append (eq : Char → Char → Bool) (pat : List Char) :
    ∀ (a b : List Char), noStartIn eq pat a = true →
      dropAfterFirst eq pat (a ++ b) = dropAfterFirst eq pat b := by
  intro a b
  induction a with
  | nil => intro _; rfl
  | cons c cs ih =>
      intro ha
      obtain ⟨h1, h2⟩ := (noStartIn_cons_iff eq pat c cs).mp ha
      rw [List.cons_append, dropAfterFirst,
        if_neg (by simp [leadsWith_false_cons eq c cs b h1])]
      exact ih h2

theorem dropAfterFirst_head (eq : Char → Char → Bool) (pat r : List Char)
    (h : ∀ c ∈ pat, eq c c = true) :
    dropAfterFirst eq pat (pat ++ r) = some r := by
  cases pat with
  | nil => cases r <;> simp [dropAfterFirst, leadsWith]
  | cons a as =>
      have hl := leadsWith_refl_append eq (a :: as) r h
      rw [List.cons_append, dropAfterFirst, if_pos (by simpa using hl)]
      simp [List.drop_left]

theorem dropAfterFirst_none (eq : Char → Char → Bool) {pat : List Char}
    (hpat : pat ≠ []) :
    ∀ (s : List Char), noStartIn eq pat s = true → dropAfterFirst eq pat s = none := by
  intro s
  induction s with
  | nil =>
      intro _
      rw [dropAfterFirst]
      cases pat with
      | nil => exact absurd rfl hpat
      | cons a as => rfl
  | cons c cs ih =>
      intro hs
      obtain ⟨h1, h2⟩ := (noStartIn_cons_iff eq pat c cs).mp hs
      rw [dropAfterFirst, if_neg ?_]
      · exact ih h2
      · have := leadsWith_false_of_litCompat_false eq [] h1
        rw [List.append_nil] at this
        simp [this]

theorem takeWhile_append_all (p : Char → Bool) :
    ∀ (a b : List Char), (∀ c ∈ a, p c = true) →
      (a ++ b).takeWhile p = a ++ b.takeWhile p := by
  intro a b
  induction a with
  | nil => intro _; rfl
  | cons c cs ih =>
      intro h
      rw [List.cons_append, List.takeWhile_cons, if_pos (h c (by simp)), List.cons_append,
        ih (fun x hx => h x (by simp [hx]))]

theorem dropWhile_append_all (p : Char → Bool) :
    ∀ (a b : List Char), (∀ c ∈ a, p c = true) →
      (a ++ b).dropWhile p = b.dropWhile p := by
  intro a b
  induction a with
  | nil => intro _; rfl
  | cons c cs ih =>
      intro h
      rw [List.cons_append, List.dropWhile_cons, if_pos (h c (by simp))]
      exact ih (fun x hx => h x (by simp [hx]))

theorem noStartIn_of_head_ne (eq : Char → Char → Bool) (p0 : Char) (pt : List Char) :
    ∀ (s : List Char), (∀ c ∈ s, eq p0 c = false) →
      noStartIn eq (p0 :: pt) s = true := by
  intro s
  induction s with
  | nil => intro _; rfl
  | cons c cs ih =>
      intro h
      rw [noStartIn_cons_iff]
      refine ⟨?_, ih (fun x hx => h x (by simp [hx]))⟩
      simp [litCompat, h c (by simp)]

theorem length_dropWhile_le_self (p : Char → Bool) :
    ∀ (l : List Char), (l.dropWhile p).length ≤ l.length := by
  intro l
  induction l with
  | nil => simp [List.dropWhile]
  | cons c cs ih =>
      rw [List.dropWhile_cons]
      by_cases h : p c = true
      · rw [if_pos h]; exact Nat.le_succ_of_le ih
      · rw [if_neg h]

/-! ### Lemmas on the `pattern.sub("", s)` scanners -/

theorem stripQuotedAux_skip (lit : List Char) :
    ∀ (a b : List Char) (f : Nat), noStartIn ceq lit a = true →
      stripQuotedAux lit (a.length + f) (a ++ b) = a ++ stripQuotedAux lit f b := by
  intro a
  induction a with
  | nil => intro b f _; simp
  | cons c cs ih =>
      intro b f ha
      obtain ⟨h1, h2⟩ := (noStartIn_cons_iff ceq lit c cs).mp ha
      have hfl : (c :: cs).length + f = (cs.length + f) + 1 := by
        simp [List.length_cons]; omega
      rw [hfl, List.cons_append, stripQuotedAux,
        if_neg (by simp [leadsWith_false_cons ceq c cs b h1]), ih b f h2,
        List.cons_append]

theorem stripQuotedAux_strip (c0 : Char) (lts : List Char) :
    ∀ (v b : List Char) (f : Nat), v.all (fun ch => ch ≠ '"') = true →
      stripQuotedAux (c0 :: lts) (f + 1) ((c0 :: lts) ++ (v ++ '"' :: b)) =
        stripQuotedAux (c0 :: lts) f b := by
  intro v b f hv
  rw [List.cons_append, stripQuotedAux,
    if_pos (by simpa using
      leadsWith_refl_append ceq (c0 :: lts) (v ++ '"' :: b) (fun c _ => ceq_refl c))]
  have hdrop : (c0 :: (lts ++ (v ++ '"' :: b))).drop (c0 :: lts).length = v ++ '"' :: b := by
    have : c0 :: (lts ++ (v ++ '"' :: b)) = (c0 :: lts) ++ (v ++ '"' :: b) := by simp
    rw [this, List.drop_left]
  rw [hdrop, dropWhile_append_all _ v ('"' :: b) (by simpa [List.all_eq_true] using hv)]
  simp [List.dropWhile_cons]

theorem stripQuotedAux_fuel (lit : List Char) :
    ∀ (f1 : Nat) (xs : List Char) (f2 : Nat), xs.length ≤ f1 → xs.length ≤ f2 →
      stripQuotedAux lit f1 xs = stripQuotedAux lit f2 xs := by
  intro f1
  induction f1 with
  | zero =>
      intro xs f2 h1 _
      have : xs = [] := List.length_eq_zero.mp (Nat.le_zero.mp h1)
      subst this; cases f2 <;> rfl
  | succ f ih =>
      intro xs f2 h1 h2
      cases xs with
      | nil => cases f2 <;> rfl
      | cons c cs =>
          cases f2 with
          | zero => simp at h2
          | succ f2' =>
              have hcs1 : cs.length ≤ f := by simp [List.length_cons] at h1; omega
              have hcs2 : cs.length ≤ f2' := by simp [List.length_cons] at h2; omega
              rw [stripQuotedAux, stripQuotedAux]
              by_cases hl : leadsWith ceq lit (c :: cs) = true
              · rw [if_pos hl, if_pos hl]
                cases hdr : ((c :: cs).drop lit.length).dropWhile (fun ch => ch ≠ '"') with
                | nil => dsimp only; rw [ih cs f2' hcs1 hcs2]
                | cons q tail =>
                    have htail : tail.length ≤ cs.length := by
                      have hle : (((c :: cs).drop lit.length).dropWhile
                          (fun ch => ch ≠ '"')).length ≤ (c :: cs).length := by
                        calc (((c :: cs).drop lit.length).dropWhile
                            (fun ch => ch ≠ '"')).length
                            ≤ ((c :: cs).drop lit.length).length :=
                              length_dropWhile_le_self _ _
                          _ ≤ (c :: cs).length := by
                              rw [List.length_drop]; omega
                      rw [hdr] at hle
                      simp [List.length_cons] at hle ⊢
                      omega
                    dsimp only
                    rw [ih tail f2' (le_trans htail hcs1) (le_trans htail hcs2)]
              · rw [if_neg hl, if_neg hl, ih cs f2' hcs1 hcs2]

theorem stripQuoted_skip (lit a b : List Char) (ha : noStartIn ceq lit a = true) :
    stripQuoted lit (a ++ b) = a ++ stripQuoted lit b := by
  simp only [stripQuoted]
  rw [List.length_append]
  exact stripQuotedAux_skip lit a b b.length ha

theorem stripQuoted_slot (c0 : Char) (lts v b : List Char)
    (hv : v.all (fun ch => ch ≠ '"') = true) :
    stripQuoted (c0 :: lts) ((c0 :: lts) ++ (v ++ '"' :: b)) = stripQuoted (c0 :: lts) b := by
  simp only [stripQuoted]
  have hlen : ((c0 :: lts) ++ (v ++ '"' :: b)).length =
      ((c0 :: lts).length + v.length + b.length) + 1 := by
    simp [List.length_append, List.length_cons]; omega
  rw [hlen, stripQuotedAux_strip c0 lts v b _ hv]
  exact stripQuotedAux_fuel (c0 :: lts) _ b b.length (by omega) le_rfl

theorem stripVersionAux_skip :
    ∀ (a b : List Char) (f : Nat), noStartIn ceq versionLit a = true →
      stripVersionAux (a.length + f) (a ++ b) = a ++ stripVersionAux f b := by
  intro a
  induction a with
  | nil => intro b f _; simp
  | cons c cs ih =>
      intro b f ha
      obtain ⟨h1, h2⟩ := (noStartIn_cons_iff ceq versionLit c cs).mp ha
      have hfl : (c :: cs).length + f = (cs.length + f) + 1 := by
        simp [List.length_cons]; omega
      rw [hfl, List.cons_append, stripVersionAux,
        if_neg (by simp [leadsWith_false_cons ceq c cs b h1]), ih b f h2,
        List.cons_append]

theorem stripVersionAux_strip :
    ∀ (v b : List Char) (f : Nat), v.all isVersionChar = true → v ≠ [] →
      b.takeWhile isVersionChar = [] →
      stripVersionAux (f + 1) (versionLit ++ (v ++ b)) = stripVersionAux f b := by
  intro v b f hv hvne hb
  have hshape : versionLit ++ (v ++ b) = '?' :: ("version=".toList ++ (v ++ b)) := rfl
  rw [hshape, stripVersionAux,
    if_pos (by simpa [hshape] using
      leadsWith_refl_append ceq versionLit (v ++ b) (fun c _ => ceq_refl c))]
  have hdrop : ('?' :: ("version=".toList ++ (v ++ b))).drop versionLit.length = v ++ b := by
    rw [← hshape]
    exact List.drop_left versionLit (v ++ b)
  rw [hdrop, takeWhile_append_all _ v b (by simpa [List.all_eq_true] using hv), hb,
    List.append_nil]
  rw [if_neg (by simpa using hvne)]
  rw [dropWhile_append_all _ v b (by simpa [List.all_eq_true] using hv)]
  have : b.dropWhile isVersionChar = b := by
    conv_rhs => rw [← List.takeWhile_append_dropWhile isVersionChar b]
    rw [hb, List.nil_append]
  rw [this]

theorem stripVersionAux_fuel :
    ∀ (f1 : Nat) (xs : List Char) (f2 : Nat), xs.length ≤ f1 → xs.length ≤ f2 →
      stripVersionAux f1 xs = stripVersionAux f2 xs := by
  intro f1
  induction f1 with
  | zero =>
      intro xs f2 h1 _
      have : xs = [] := List.length_eq_zero.mp (Nat.le_zero.mp h1)
      subst this; cases f2 <;> rfl
  | succ f ih =>
      intro xs f2 h1 h2
      cases xs with
      | nil => cases f2 <;> rfl
      | cons c cs =>
          cases f2 with
          | zero => simp at h2
          | succ f2' =>
              have hcs1 : cs.length ≤ f := by simp [List.length_cons] at h1; omega
              have hcs2 : cs.length ≤ f2' := by simp [List.length_cons] at h2; omega
              rw [stripVersionAux, stripVersionAux]
              by_cases hl : leadsWith ceq versionLit (c :: cs) = true
              · rw [if_pos hl, if_pos hl]
                by_cases hr : (((c :: cs).drop versionLit.length).takeWhile
                    isVersionChar).isEmpty = true
                · rw [if_pos hr, if_pos hr, ih cs f2' hcs1 hcs2]
                · rw [if_neg hr, if_neg hr]
                  have htail : (((c :: cs).drop versionLit.length).dropWhile
                      isVersionChar).length ≤ cs.length := by
                    calc (((c :: cs).drop versionLit.length).dropWhile
                        isVersionChar).length
                        ≤ ((c :: cs).drop versionLit.length).length :=
                          length_dropWhile_le_self _ _
                      _ ≤ cs.length := by
                          rw [List.length_drop]
                          have h9 : versionLit.length = 9 := rfl
                          rw [h9]
                          simp [List.length_cons]
                  exact ih _ f2' (le_trans htail hcs1) (le_trans htail hcs2)
              · rw [if_neg hl, if_neg hl, ih cs f2' hcs1 hcs2]

theorem stripVersion_skip (a b : List Char) (ha : noStartIn ceq versionLit a = true) :
    stripVersion (a ++ b) = a ++ stripVersion b := by
  simp only [stripVersion]
  rw [List.length_append]
  exact stripVersionAux_skip a b b.length ha

theorem stripVersion_slot (v b : List Char) (hv : v.all isVersionChar = true)
    (hvne : v ≠ []) (hb : b.takeWhile isVersionChar = []) :
    stripVersion (versionLit ++ (v ++ b)) = stripVersion b := by
  simp only [stripVersion]
  have hlen : (versionLit ++ (v ++ b)).length =
      (versionLit.length + v.length + b.length - 1) + 1 := by
    have h9 : versionLit.length = 9 := rfl
    rw [List.length_append, List.length_append, h9]
    omega
  rw [hlen, stripVersionAux_strip v b _ hv hvne hb]
  exact stripVersionAux_fuel _ b b.length
    (by have h9 : versionLit.length = 9 := rfl; omega) le_rfl

/-! ### C1: reservation-attempt outcome classification -/

/-- C1: a final URL containing the checkout segment is classified success and
returned; a final URL containing the marketplace segment and not the checkout
segment is classified failure with no URL; and for a URL containing exactly
one of the two segments, the classification is success precisely when that
segment is the checkout one. -/
theorem addToCart_redirect_classification (status : Nat) (url : List Char) :
    (hasSub ceq checkoutSeg url = true →
       addToCartClassify status url = (true, some url)) ∧
    (hasSub ceq secondhandSeg url = true → hasSub ceq checkoutSeg url = false →
       addToCartClassify status url = (false, none)) ∧
    (hasSub ceq checkoutSeg url ≠ hasSub ceq secondhandSeg url →
       ((addToCartClassify status url).1 = true ↔ hasSub ceq checkoutSeg url = true)) := by
  refine ⟨?_, ?_, ?_⟩
  · intro h; simp [addToCartClassify, h]
  · intro h1 h2; simp [addToCartClassify, h1, h2]
  · intro hne
    cases hchk : hasSub ceq checkoutSeg url with
    | true => simp [addToCartClassify, hchk]
    | false =>
        cases hmkt : hasSub ceq secondhandSeg url with
        | true => simp [addToCartClassify, hchk, hmkt]
        | false => exact absurd (hchk.trans hmkt.symm) hne

/-- Witness for C1 at concrete redirect URLs: a checkout redirect is a
success carrying the URL, a marketplace redirect is a failure with no URL. -/
theorem addToCart_redirect_classification_witness :
    addToCartClassify 302 ("https://tickets.example.com/event/checkout/start".toList) =
      (true, some ("https://tickets.example.com/event/checkout/start".toList)) ∧
    addToCartClassify 302 ("https://tickets.example.com/event/secondhand/".toList) =
      (false, none) :=
  ⟨(addToCart_redirect_classification 302 _).1 (by decide),
   (addToCart_redirect_classification 302 _).2.1 (by decide) (by decide)⟩

/-! ### C2: CSRF-token injection on POST -/

/-- C2: a caller-supplied anti-forgery field is never overwritten (the form
data is left untouched), and when the field is absent and a stored token
exists (a non-`None`, non-empty Python string), the field is added with the
stored token's value. -/
theorem doPost_csrf_injection :
    (∀ (tok : Option String) (data : List (String × String)) (v : String),
       data.lookup csrfFieldName = some v →
       doPostInjectCsrf tok data = data) ∧
    (∀ (t : String) (data : List (String × String)),
       t ≠ "" → data.lookup csrfFieldName = none →
       (doPostInjectCsrf (some t) data).lookup csrfFieldName = some t) := by
  constructor
  · intro tok data v h
    match tok with
    | none => rfl
    | some t =>
        simp only [doPostInjectCsrf]
        by_cases ht : t = ""
        · simp [ht]
        · simp [ht, h]
  · intro t data ht h
    rw [doPostInjectCsrf, if_neg ht, if_neg (by simp [h])]
    exact lookup_append_single h

/-- Witness for C2: with stored token `"tok"`, form data already carrying the
field keeps its own value, and form data without it gains the stored token. -/
theorem doPost_csrf_injection_witness :
    doPostInjectCsrf (some "tok") [("csrfmiddlewaretoken", "mine"), ("item_1", "1")] =
      [("csrfmiddlewaretoken", "mine"), ("item_1", "1")] ∧
    (doPostInjectCsrf (some "tok") [("item_1", "1")]).lookup "csrfmiddlewaretoken" =
      some "tok" :=
  ⟨doPost_csrf_injection.1 (some "tok") _ "mine" (by decide),
   doPost_csrf_injection.2 "tok" [("item_1", "1")] (by decide) (by decide)⟩

/-! ### C3: backoff policy -/

/-- C3: backoff is the nominal interval at zero errors; 30/60/120/240 seconds
at 1..4 errors under the default 300-second ceiling; in general
`min(30 * 2^(n-1), max)` for `n ≥ 1`, monotonically non-decreasing in `n` and
capped at the ceiling. -/
theorem getBackoffSeconds_spec (pollInterval backoffMax : Rat) :
    getBackoffSeconds pollInterval backoffMax 0 = pollInterval ∧
    (getBackoffSeconds pollInterval defaultBackoffMax 1 = 30 ∧
     getBackoffSeconds pollInterval defaultBackoffMax 2 = 60 ∧
     getBackoffSeconds pollInterval defaultBackoffMax 3 = 120 ∧
     getBackoffSeconds pollInterval defaultBackoffMax 4 = 240) ∧
    (∀ n : Nat, 1 ≤ n →
       getBackoffSeconds pollInterval backoffMax n = min (30 * 2 ^ (n - 1)) backoffMax) ∧
    (∀ m n : Nat, 1 ≤ m → m ≤ n →
       getBackoffSeconds pollInterval backoffMax m ≤
         getBackoffSeconds pollInterval backoffMax n) ∧
    (∀ n : Nat, 1 ≤ n → getBackoffSeconds pollInterval backoffMax n ≤ backoffMax) := by
  refine ⟨rfl, ⟨?_, ?_, ?_, ?_⟩, ?_, ?_, ?_⟩
  · norm_num [getBackoffSeconds, defaultBackoffMax]
  · norm_num [getBackoffSeconds, defaultBackoffMax]
  · norm_num [getBackoffSeconds, defaultBackoffMax]
  · norm_num [getBackoffSeconds, defaultBackoffMax]
  · intro n hn
    rw [getBackoffSeconds, if_neg (by omega)]
  · intro m n hm hmn
    rw [getBackoffSeconds, if_neg (by omega), getBackoffSeconds, if_neg (by omega)]
    refine min_le_min ?_ le_rfl
    have h2 : (2 : Rat) ^ (m - 1) ≤ 2 ^ (n - 1) := by
      apply pow_le_pow_right₀ (by norm_num) (by omega)
    nlinarith
  · intro n hn
    rw [getBackoffSeconds, if_neg (by omega)]
    exact min_le_right _ _

/-- Witness for C3 at the default configuration. -/
theorem getBackoffSeconds_spec_witness :
    getBackoffSeconds 15 300 0 = 15 ∧
    getBackoffSeconds 15 300 3 = min (30 * 2 ^ (3 - 1)) 300 ∧
    getBackoffSeconds 15 300 2 ≤ getBackoffSeconds 15 300 5 ∧
    getBackoffSeconds 15 300 9 ≤ 300 :=
  ⟨(getBackoffSeconds_spec 15 300).1,
   (getBackoffSeconds_spec 15 300).2.2.1 3 (by norm_num),
   (getBackoffSeconds_spec 15 300).2.2.2.1 2 5 (by norm_num) (by norm_num),
   (getBackoffSeconds_spec 15 300).2.2.2.2 9 (by norm_num)⟩

/-! ### C7: reconnect-and-retry-once -/

/-- C7: when the first attempt fails with a graceful connection-termination
error the session reconnects once and retries exactly once (two attempts
total, one reconnect), the request's result being that of the second
attempt; if the retry fails with the same kind of error that error
propagates; and a non-termination error propagates with no retry at all. -/
theorem doRequest_retry_once {R : Type} (transport : Nat → AttemptOutcome R)
    (e : TransportError) (h0 : transport 0 = .err e) :
    (isConnectionTerminatedError e = true →
       doRequestWithRetry transport 0 =
         ⟨(doRequestNoRetry transport 1).result, 2, 1⟩) ∧
    (∀ e2 : TransportError, isConnectionTerminatedError e = true →
       transport 1 = .err e2 →
       (doRequestWithRetry transport 0).result = .error e2) ∧
    (isConnectionTerminatedError e = false →
       doRequestWithRetry transport 0 = ⟨.error e, 1, 0⟩) := by
  refine ⟨?_, ?_, ?_⟩
  · intro hterm
    rw [doRequestWithRetry, h0]
    simp only [hterm, if_true]
    have : (doRequestNoRetry transport 1).nextAttempt = 2 ∧
        (doRequestNoRetry transport 1).reconnects = 0 := by
      rw [doRequestNoRetry]
      cases transport 1 <;> exact ⟨rfl, rfl⟩
    rw [this.1, this.2]
  · intro e2 hterm h1
    rw [doRequestWithRetry, h0]
    simp only [hterm, if_true]
    rw [doRequestNoRetry, h1]
  · intro hterm
    rw [doRequestWithRetry, h0]
    simp [hterm]

/-- Witness for C7: a transport whose first two attempts both die with the
HTTP/2 GOAWAY (`ConnectionTerminated`) error retries once and propagates the
second error. -/
theorem doRequest_retry_once_witness :
    (doRequestWithRetry (R := Unit)
        (fun i => .err ⟨"ConnectionTerminated error_code=0", i = 1⟩) 0 =
      ⟨(doRequestNoRetry (R := Unit)
          (fun i => .err ⟨"ConnectionTerminated error_code=0", i = 1⟩) 1).result, 2, 1⟩) ∧
    (doRequestWithRetry (R := Unit)
        (fun i => .err ⟨"ConnectionTerminated error_code=0", i = 1⟩) 0).result =
      .error ⟨"ConnectionTerminated error_code=0", true⟩ :=
  ⟨(doRequest_retry_once _ _ rfl).1 (by decide),
   (doRequest_retry_once (fun i => .err ⟨"ConnectionTerminated error_code=0", i = 1⟩)
      ⟨"ConnectionTerminated error_code=0", (0 : Nat) = 1⟩ rfl).2.1
     ⟨"ConnectionTerminated error_code=0", true⟩ (by decide) (by simp)⟩

/-! ### C8: poll-loop status-code handling -/

/-- C8: with no `Retry-After` header, a 429 records an error and sleeps 60 s,
a 409 sleeps 5 s without recording an error, a 503 records an error and
sleeps 30 s, and any other non-200 records an error with no extra sleep; the
consecutive-error counter increments exactly when an error is recorded. -/
theorem pollOnce_status_handling :
    (pollStatusEffect 429 none = ⟨true, some 60⟩) ∧
    (pollStatusEffect 409 none = ⟨false, some 5⟩) ∧
    (pollStatusEffect 503 none = ⟨true, some 30⟩) ∧
    (∀ s : Nat, s ≠ 200 → s ≠ 429 → s ≠ 409 → s ≠ 503 →
       pollStatusEffect s none = ⟨true, none⟩) ∧
    (∀ (s : Nat) (n : Nat),
       pollStatusNewErrors (pollStatusEffect s none) n =
         if (pollStatusEffect s none).recordsError then n + 1 else n) := by
  refine ⟨rfl, rfl, rfl, ?_, ?_⟩
  · intro s h200 h429 h409 h503
    simp only [pollStatusEffect, pollStatusNoHeader]
    rw [if_neg (by simpa using h429), if_neg (by simpa using h409),
      if_neg (by simpa using h503), if_pos (by simpa using h200)]
  · intro s n
    rfl

/-- Witness for C8 at a concrete "other non-200" status (500). -/
theorem pollOnce_status_handling_witness :
    pollStatusEffect 500 none = ⟨true, none⟩ ∧
    pollStatusNewErrors (pollStatusEffect 500 none) 3 =
      if (pollStatusEffect 500 none).recordsError then 3 + 1 else 3 :=
  ⟨pollOnce_status_handling.2.2.2.1 500 (by decide) (by decide) (by decide) (by decide),
   pollOnce_status_handling.2.2.2.2 500 3⟩

/-! ### C4: marketplace-link discovery -/

/-- C4: when no anchor target on the page contains the marketplace segment
the discovery returns `None`; and any returned URL is the resolution against
the base URL of an anchor target of the page that contains the marketplace
segment. -/
theorem find_marketplace_link_spec (html baseUrl : String) :
    ((extractHrefValues html.toList).all
        (fun h => !(hasSub ceq marketplaceSeg h)) = true →
      find_marketplace_link html baseUrl = none) ∧
    (∀ u : String, find_marketplace_link html baseUrl = some u →
      ∃ h ∈ extractHrefValues html.toList,
        hasSub ceq marketplaceSeg h = true ∧
        u = String.mk (resolveAgainstBase baseUrl.toList h)) := by
  constructor
  · intro hall
    rw [find_marketplace_link]
    have : (extractHrefValues html.toList).filter
        (fun h => hasSub ceq marketplaceSeg h) = [] := by
      rw [List.filter_eq_nil_iff]
      intro a ha
      have := List.all_eq_true.mp hall a ha
      simpa using this
    rw [this]
  · intro u hu
    rw [find_marketplace_link] at hu
    cases hfil : (extractHrefValues html.toList).filter
        (fun h => hasSub ceq marketplaceSeg h) with
    | nil => rw [hfil] at hu; exact absurd hu (by simp)
    | cons h t =>
        rw [hfil] at hu
        have hmem : h ∈ (extractHrefValues html.toList).filter
            (fun x => hasSub ceq marketplaceSeg x) := by
          rw [hfil]; exact List.mem_cons_self h t
        rw [List.mem_filter] at hmem
        refine ⟨h, hmem.1, hmem.2, ?_⟩
        simpa using hu.symm

/-- Witness for C4: a page whose only anchors are non-marketplace links
yields `None`; a root-relative marketplace anchor resolves against the base
URL. -/
theorem find_marketplace_link_spec_witness :
    find_marketplace_link "<a href=\"/event/merch/\">M</a><a href=\"/event/faq/\">F</a>"
      "https://tickets.example.com" = none ∧
    ∃ h ∈ extractHrefValues "<a href=\"/event/secondhand/\">Marketplace</a>".toList,
      hasSub ceq marketplaceSeg h = true ∧
      "https://tickets.example.com/event/secondhand/" =
        String.mk (resolveAgainstBase "https://tickets.example.com".toList h) :=
  ⟨(find_marketplace_link_spec _ _).1 (by decide),
   (find_marketplace_link_spec "<a href=\"/event/secondhand/\">Marketplace</a>"
      "https://tickets.example.com").2 _ (by decide)⟩

/-! ### C6: baseline digest idempotence -/

theorem stripQuoted_dataNow_slot (a v b : List Char)
    (ha : noStartIn ceq dataNowLit a = true)
    (hv : v.all (fun ch => ch ≠ '"') = true) :
    stripQuoted dataNowLit (a ++ dataNowSlot v ++ b) = a ++ stripQuoted dataNowLit b := by
  have hshape : a ++ dataNowSlot v ++ b = a ++ (dataNowLit ++ (v ++ '"' :: b)) := by
    simp [dataNowSlot, List.append_assoc]
  rw [hshape, stripQuoted_skip dataNowLit a _ ha]
  congr 1
  have hd : dataNowLit = 'd' :: "ata-now=\"".toList := rfl
  rw [hd]
  exact stripQuoted_slot 'd' _ v b hv

theorem stripQuoted_csrf_slot (a v b : List Char)
    (ha : noStartIn ceq csrfLit a = true)
    (hv : v.all (fun ch => ch ≠ '"') = true) :
    stripQuoted csrfLit (a ++ csrfFieldSlot v ++ b) = a ++ stripQuoted csrfLit b := by
  have hshape : a ++ csrfFieldSlot v ++ b = a ++ (csrfLit ++ (v ++ '"' :: b)) := by
    simp [csrfFieldSlot, List.append_assoc]
  rw [hshape, stripQuoted_skip csrfLit a _ ha]
  congr 1
  have hd : csrfLit = 'n' :: "ame=\"csrfmiddlewaretoken\" value=\"".toList := rfl
  rw [hd]
  exact stripQuoted_slot 'n' _ v b hv

/-- C6: the baseline digest is a function of the dynamic-substring-stripped
content, so equal stripped contents give equal digests and the same
baseline-comparison outcome; and contents differing only in the value of a
dynamic timestamp attribute, anti-forgery field, or cache-busting version
fragment (the value well-formed and the surrounding text not itself starting
a dynamic pattern) produce equal digests. -/
theorem baseline_digest_idempotent :
    (∀ (md5hex : List Char → List Char) (s1 s2 : List Char),
       stripDynamic s1 = stripDynamic s2 →
       contentDigest md5hex s1 = contentDigest md5hex s2) ∧
    (∀ (md5hex : List Char → List Char) (baseline : Option (List Char)) (s1 s2 : List Char),
       hasSub ceq noTicketsMarker s1 = true → hasSub ceq noTicketsMarker s2 = true →
       stripDynamic s1 = stripDynamic s2 →
       is_baseline_response md5hex baseline s1 = is_baseline_response md5hex baseline s2) ∧
    (∀ (md5hex : List Char → List Char) (a b v1 v2 : List Char),
       noStartIn ceq dataNowLit a = true →
       v1.all (fun ch => ch ≠ '"') = true → v2.all (fun ch => ch ≠ '"') = true →
       contentDigest md5hex (a ++ dataNowSlot v1 ++ b) =
         contentDigest md5hex (a ++ dataNowSlot v2 ++ b)) ∧
    (∀ (md5hex : List Char → List Char) (a b v1 v2 : List Char),
       noStartIn ceq dataNowLit (a ++ csrfFieldSlot v1) = true →
       noStartIn ceq dataNowLit (a ++ csrfFieldSlot v2) = true →
       noStartIn ceq csrfLit a = true →
       v1.all (fun ch => ch ≠ '"') = true → v2.all (fun ch => ch ≠ '"') = true →
       contentDigest md5hex (a ++ csrfFieldSlot v1 ++ b) =
         contentDigest md5hex (a ++ csrfFieldSlot v2 ++ b)) ∧
    (∀ (md5hex : List Char → List Char) (a b v1 v2 : List Char),
       noStartIn ceq dataNowLit (a ++ versionSlot v1) = true →
       noStartIn ceq dataNowLit (a ++ versionSlot v2) = true →
       noStartIn ceq csrfLit (a ++ versionSlot v1) = true →
       noStartIn ceq csrfLit (a ++ versionSlot v2) = true →
       noStartIn ceq versionLit a = true →
       v1.all isVersionChar = true → v2.all isVersionChar = true →
       v1 ≠ [] → v2 ≠ [] →
       (stripQuoted csrfLit (stripQuoted dataNowLit b)).takeWhile isVersionChar = [] →
       contentDigest md5hex (a ++ versionSlot v1 ++ b) =
         contentDigest md5hex (a ++ versionSlot v2 ++ b)) := by
  refine ⟨?_, ?_, ?_, ?_, ?_⟩
  · intro md5hex s1 s2 h
    simp only [contentDigest, h]
  · intro md5hex baseline s1 s2 h1 h2 h
    have hd : contentDigest md5hex s1 = contentDigest md5hex s2 := by
      simp only [contentDigest, h]
    simp only [is_baseline_response, h1, h2, Bool.not_true, hd]
  · intro md5hex a b v1 v2 ha hv1 hv2
    simp only [contentDigest, stripDynamic]
    rw [stripQuoted_dataNow_slot a v1 b ha hv1, stripQuoted_dataNow_slot a v2 b ha hv2]
  · intro md5hex a b v1 v2 h1 h2 ha hv1 hv2
    simp only [contentDigest, stripDynamic]
    rw [show a ++ csrfFieldSlot v1 ++ b = (a ++ csrfFieldSlot v1) ++ b from by simp,
      show a ++ csrfFieldSlot v2 ++ b = (a ++ csrfFieldSlot v2) ++ b from by simp,
      stripQuoted_skip dataNowLit (a ++ csrfFieldSlot v1) b h1,
      stripQuoted_skip dataNowLit (a ++ csrfFieldSlot v2) b h2]
    rw [show (a ++ csrfFieldSlot v1) ++ stripQuoted dataNowLit b =
        a ++ csrfFieldSlot v1 ++ stripQuoted dataNowLit b from by simp,
      show (a ++ csrfFieldSlot v2) ++ stripQuoted dataNowLit b =
        a ++ csrfFieldSlot v2 ++ stripQuoted dataNowLit b from by simp,
      stripQuoted_csrf_slot a v1 _ ha hv1, stripQuoted_csrf_slot a v2 _ ha hv2]
  · intro md5hex a b v1 v2 h1 h2 h3 h4 ha hv1 hv2 hn1 hn2 hb
    simp only [contentDigest, stripDynamic]
    rw [show a ++ versionSlot v1 ++ b = (a ++ versionSlot v1) ++ b from by simp,
      show a ++ versionSlot v2 ++ b = (a ++ versionSlot v2) ++ b from by simp,
      stripQuoted_skip dataNowLit (a ++ versionSlot v1) b h1,
      stripQuoted_skip dataNowLit (a ++ versionSlot v2) b h2,
      stripQuoted_skip csrfLit (a ++ versionSlot v1) _ h3,
      stripQuoted_skip csrfLit (a ++ versionSlot v2) _ h4]
    rw [show (a ++ versionSlot v1) ++ stripQuoted csrfLit (stripQuoted dataNowLit b) =
        a ++ (versionLit ++ (v1 ++ stripQuoted csrfLit (stripQuoted dataNowLit b)))
        from by simp [versionSlot],
      show (a ++ versionSlot v2) ++ stripQuoted csrfLit (stripQuoted dataNowLit b) =
        a ++ (versionLit ++ (v2 ++ stripQuoted csrfLit (stripQuoted dataNowLit b)))
        from by simp [versionSlot],
      stripVersion_skip a _ ha, stripVersion_skip a _ ha,
      stripVersion_slot v1 _ hv1 hn1 hb, stripVersion_slot v2 _ hv2 hn2 hb]

/-- Witness for C6: concrete "no tickets" contents differing only in a
timestamp value give the same baseline-comparison result; concrete pages
differing only in a timestamp, token, or version value hash identically. -/
theorem baseline_digest_idempotent_witness :
    is_baseline_response (fun x => x) none
        (("<body data-now=\"111\">No tickets available at the moment</body>").toList) =
      is_baseline_response (fun x => x) none
        (("<body data-now=\"222\">No tickets available at the moment</body>").toList) ∧
    contentDigest (fun x => x)
        ("<body ".toList ++ dataNowSlot "111".toList ++ ">".toList) =
      contentDigest (fun x => x)
        ("<body ".toList ++ dataNowSlot "222".toList ++ ">".toList) ∧
    contentDigest (fun x => x)
        ("<p>".toList ++ csrfFieldSlot "abc".toList ++ ">".toList) =
      contentDigest (fun x => x)
        ("<p>".toList ++ csrfFieldSlot "xy".toList ++ ">".toList) ∧
    contentDigest (fun x => x)
        ("<link href=\"s.css".toList ++ versionSlot "ab12".toList ++ "\">".toList) =
      contentDigest (fun x => x)
        ("<link href=\"s.css".toList ++ versionSlot "ff2-0".toList ++ "\">".toList) :=
  ⟨baseline_digest_idempotent.2.1 (fun x => x) none _ _ (by decide) (by decide) (by decide),
   baseline_digest_idempotent.2.2.1 (fun x => x) _ _ _ _ (by decide) (by decide) (by decide),
   baseline_digest_idempotent.2.2.2.1 (fun x => x) _ _ _ _ (by decide) (by decide)
     (by decide) (by decide) (by decide),
   baseline_digest_idempotent.2.2.2.2 (fun x => x) _ _ _ _ (by decide) (by decide)
     (by decide) (by decide) (by decide) (by decide) (by decide) (by decide) (by decide)
     (by decide)⟩

/-! ### Fast path on the expected panel shape -/

theorem panelRender_decompose (p : PanelData) (rest : List Char) :
    panelRender p ++ rest = panelAnchor ++ panelTail0 p rest := by
  have hA : panelA = panelAnchor ++ (preH3 ++ h3Open) := rfl
  have hB : panelB = h3Close ++ (preH2 ++ h2Open) := rfl
  have hC : panelC = h2Close ++ (formOpen ++ (formPre ++ actionOpen)) := rfl
  have hD : panelD = '"' :: ('>' :: (inputPre ++ (csrfNameLit ++ ([' '] ++ valueOpen)))) := rfl
  simp only [panelRender, panelTail0, panelTail1, panelTail2, panelTail3, panelTail4,
    panelTail5, panelE, hA, hB, hC, hD, List.append_assoc, List.cons_append]

theorem matchFormAction_panel (p : PanelData) (rest : List Char)
    (hact : p.action.toList.all (fun c => c ≠ '"' && c ≠ '>') = true)
    (hbuy : hasSub ieq buyPathSeg p.action.toList = true) :
    matchFormAction (panelTail3 p rest) =
      some (p.action.toList,
        inputPre ++ (csrfNameLit ++ ([' '] ++ (valueOpen ++ panelTail5 p rest)))) := by
  have hq : ∀ c ∈ p.action.toList, (decide (c ≠ '"')) = true := by
    intro c hc
    have := List.all_eq_true.mp hact c hc
    simp only [Bool.and_eq_true] at this
    simpa using this.1
  simp only [matchFormAction, panelTail3]
  rw [dropAfterFirst_append ieq actionOpen formPre _ (by decide),
    dropAfterFirst_head ieq actionOpen _ (fun c _ => ieq_refl c)]
  dsimp only
  have hidx : (formPre ++ (actionOpen ++ panelTail4 p rest)).length -
      ((panelTail4 p rest).length + actionOpen.length) = formPre.length := by
    simp only [List.length_append]
    have : actionOpen.length = 8 := rfl
    omega
  rw [hidx, List.take_left, if_neg (by decide)]
  simp only [panelTail4]
  rw [takeWhile_append_all _ p.action.toList _ hq,
    dropWhile_append_all _ p.action.toList _ hq]
  simp
  exact hbuy

theorem matchCsrfValue_panel (p : PanelData) (rest : List Char)
    (hcsrf : p.csrf.toList.all (fun c => c ≠ '"') = true) :
    matchCsrfValue ([' '] ++ (valueOpen ++ panelTail5 p rest)) =
      some (p.csrf.toList, panelETail ++ rest) := by
  have hq : ∀ c ∈ p.csrf.toList, (decide (c ≠ '"')) = true := by
    intro c hc
    simpa using List.all_eq_true.mp hcsrf c hc
  simp only [matchCsrfValue]
  rw [dropAfterFirst_append ieq valueOpen [' '] _ (by decide),
    dropAfterFirst_head ieq valueOpen _ (fun c _ => ieq_refl c)]
  dsimp only
  have hidx : ([' '] ++ (valueOpen ++ panelTail5 p rest)).length -
      ((panelTail5 p rest).length + valueOpen.length) = ([' '] : List Char).length := by
    simp only [List.length_append]
    have : valueOpen.length = 7 := rfl
    omega
  rw [hidx, List.take_left, if_neg (by decide)]
  simp only [panelTail5]
  rw [takeWhile_append_all _ p.csrf.toList _ hq,
    dropWhile_append_all _ p.csrf.toList _ hq]
  simp

theorem stepTicketPanel_panel (pre rest : List Char) (p : PanelData)
    (hpre : noStartIn ieq panelAnchor pre = true) (hwf : panelWf p = true) :
    stepTicketPanel (pre ++ (panelRender p ++ rest)) =
      some (fastPanelListing p, panelETail ++ rest) := by
  simp only [panelWf] at hwf
  rw [Bool.and_eq_true, Bool.and_eq_true, Bool.and_eq_true, Bool.and_eq_true,
    Bool.and_eq_true, Bool.and_eq_true] at hwf
  obtain ⟨⟨⟨⟨⟨ht1, ht2⟩, ⟨hp1, hp2⟩⟩, hact⟩, hbuy⟩, hcsrf⟩ := hwf
  have htq : ∀ c ∈ p.ticketType.toList, (decide (c ≠ '<')) = true := by
    intro c hc; simpa using List.all_eq_true.mp ht2 c hc
  have hpq : ∀ c ∈ p.price.toList, (decide (c ≠ '<')) = true := by
    intro c hc; simpa using List.all_eq_true.mp hp2 c hc
  rw [panelRender_decompose]
  simp only [stepTicketPanel]
  rw [dropAfterFirst_append ieq panelAnchor pre _ hpre,
    dropAfterFirst_head ieq panelAnchor _ (fun c _ => ieq_refl c)]
  simp only [panelTail0]
  rw [dropAfterFirst_append ieq h3Open preH3 _ (by decide),
    dropAfterFirst_head ieq h3Open _ (fun c _ => ieq_refl c)]
  simp only [panelTail1]
  rw [takeWhile_append_all _ p.ticketType.toList _ htq,
    dropWhile_append_all _ p.ticketType.toList _ htq]
  have hh3 : h3Close ++ (preH2 ++ (h2Open ++ panelTail2 p rest)) =
      '<' :: ("/h3>".toList ++ (preH2 ++ (h2Open ++ panelTail2 p rest))) := rfl
  rw [hh3, List.takeWhile_cons_of_neg (by decide), List.dropWhile_cons_of_neg (by decide),
    List.append_nil, ← hh3]
  rw [if_neg (by simpa using ht1)]
  rw [if_neg (by
    simp [leadsWith_refl_append ieq h3Close (preH2 ++ (h2Open ++ panelTail2 p rest))
      (fun c _ => ieq_refl c)])]
  rw [show (h3Close ++ (preH2 ++ (h2Open ++ panelTail2 p rest))).drop h3Close.length =
      preH2 ++ (h2Open ++ panelTail2 p rest) from List.drop_left _ _]
  rw [dropAfterFirst_append ieq h2Open preH2 _ (by decide),
    dropAfterFirst_head ieq h2Open _ (fun c _ => ieq_refl c)]
  simp only [panelTail2]
  rw [takeWhile_append_all _ p.price.toList _ hpq,
    dropWhile_append_all _ p.price.toList _ hpq]
  have hh2 : h2Close ++ (formOpen ++ panelTail3 p rest) =
      '<' :: ("/h2>".toList ++ (formOpen ++ panelTail3 p rest)) := rfl
  rw [hh2, List.takeWhile_cons_of_neg (by decide), List.dropWhile_cons_of_neg (by decide),
    List.append_nil, ← hh2]
  rw [if_neg (by simpa using hp1)]
  rw [if_neg (by
    simp [leadsWith_refl_append ieq h2Close (formOpen ++ panelTail3 p rest)
      (fun c _ => ieq_refl c)])]
  rw [show (h2Close ++ (formOpen ++ panelTail3 p rest)).drop h2Close.length =
      formOpen ++ panelTail3 p rest from List.drop_left _ _]
  rw [dropAfterFirst_head ieq formOpen _ (fun c _ => ieq_refl c)]
  dsimp only
  rw [matchFormAction_panel p rest hact hbuy]
  dsimp only
  rw [dropAfterFirst_append ieq csrfNameLit inputPre _ (by decide),
    dropAfterFirst_head ieq csrfNameLit _ (fun c _ => ieq_refl c)]
  dsimp only
  rw [matchCsrfValue_panel p rest hcsrf]
  rfl

theorem panelRender_length (p : PanelData) :
    panelETail.length + 1 ≤ (panelRender p).length := by
  simp [panelRender, List.length_append, panelE]
  omega

theorem ticketPanelScanAux_panels :
    ∀ (ps : List PanelData) (pre tail : List Char) (fuel : Nat),
      (∀ p ∈ ps, panelWf p = true) →
      noStartIn ieq panelAnchor pre = true →
      noStartIn ieq panelAnchor tail = true →
      (pre ++ ((ps.map panelRender).flatten ++ tail)).length ≤ fuel →
      ticketPanelScanAux fuel (pre ++ ((ps.map panelRender).flatten ++ tail)) =
        ps.map fastPanelListing := by
  intro ps
  induction ps with
  | nil =>
      intro pre tail fuel hwf hpre htail hlen
      have hns : noStartIn ieq panelAnchor (pre ++ tail) = true :=
        noStartIn_append ieq panelAnchor pre tail hpre htail
      have hda : dropAfterFirst ieq panelAnchor (pre ++ tail) = none :=
        dropAfterFirst_none ieq (by decide) _ hns
      have hstep : stepTicketPanel (pre ++ tail) = none := by
        simp only [stepTicketPanel, hda]
      simp only [List.map_nil, List.flatten_nil]
      cases fuel with
      | zero => rfl
      | succ f =>
          rw [ticketPanelScanAux, show pre ++ ([] ++ tail) = pre ++ tail from by simp,
            hstep]
  | cons p ps ih =>
      intro pre tail fuel hwf hpre htail hlen
      have hshape : pre ++ (((p :: ps).map panelRender).flatten ++ tail) =
          pre ++ (panelRender p ++ ((ps.map panelRender).flatten ++ tail)) := by
        simp [List.append_assoc]
      cases fuel with
      | zero =>
          exfalso
          have hp1 : panelETail.length + 1 ≤ (panelRender p).length := panelRender_length p
          rw [hshape] at hlen
          simp only [List.length_append] at hlen
          omega
      | succ f =>
          rw [hshape, ticketPanelScanAux,
            stepTicketPanel_panel pre _ p hpre (hwf p (by simp))]
          dsimp only
          rw [show panelETail ++ ((ps.map panelRender).flatten ++ tail) =
              panelETail ++ ((ps.map panelRender).flatten ++ tail) from rfl]
          rw [ih panelETail tail f (fun q hq => hwf q (by simp [hq])) (by decide) htail ?_]
          · simp
          · have hp1 : panelETail.length + 1 ≤ (panelRender p).length := panelRender_length p
            rw [hshape] at hlen
            simp only [List.length_append] at hlen ⊢
            omega

theorem ticketPanelScan_page (ps : List PanelData)
    (hwf : ∀ p ∈ ps, panelWf p = true) :
    ticketPanelScan (marketplacePageHtml ps) = ps.map fastPanelListing := by
  simp only [ticketPanelScan, marketplacePageHtml]
  rw [show pageHeader ++ (ps.map panelRender).flatten ++ pageFooter =
      pageHeader ++ ((ps.map panelRender).flatten ++ pageFooter) from by simp]
  exact ticketPanelScanAux_panels ps pageHeader pageFooter _ hwf (by decide) (by decide)
    le_rfl

/-- On a well-formed page with at least one panel, the fast path yields
exactly the panel listings. -/
theorem extract_listings_fast_page (ps : List PanelData)
    (hwf : ∀ p ∈ ps, panelWf p = true) (hne : ps ≠ []) :
    extract_listings_fast (marketplacePageHtml ps) = ps.map fastPanelListing := by
  simp only [extract_listings_fast]
  rw [ticketPanelScan_page ps hwf, if_neg (by simp [hne])]

/-! ### Structural parse on the expected panel shape -/

theorem childDescendants_append (par : Node) :
    ∀ (xs ys : List Node), childDescendants par (xs ++ ys) =
      childDescendants par xs ++ childDescendants par ys := by
  intro xs ys
  induction xs with
  | nil => rfl
  | cons c cs ih =>
      simp only [List.cons_append, childDescendants, List.append_eq, ih, List.append_assoc]

theorem panelDom_descendants (par : Node) (p : PanelData) :
    childDescendants par [panelDom p] =
      [(panelDom p, par),
       (panelHeadingNode p, panelDom p),
       (panelH3Node p, panelHeadingNode p),
       (.text p.ticketType, panelH3Node p),
       (panelBodyNode p, panelDom p),
       (panelH2Node p, panelBodyNode p),
       (.text p.price, panelH2Node p),
       (panelFormNode p, panelBodyNode p),
       (panelInputNode p, panelFormNode p),
       (panelButtonNode, panelFormNode p),
       (.text "Buy", panelButtonNode)] := by
  simp [childDescendants, nodeDescendants, panelDom, panelHeadingNode, panelH3Node,
    panelBodyNode, panelH2Node, panelFormNode, panelInputNode, panelButtonNode]

theorem isPostForm_panelFormNode (p : PanelData) :
    isPostForm (panelFormNode p) = true := by rfl

theorem filter_isPostForm_panel (par : Node) (p : PanelData) :
    (childDescendants par [panelDom p]).filter (fun q => isPostForm q.1) =
      [(panelFormNode p, panelBodyNode p)] := by
  rw [panelDom_descendants]
  simp only [List.filter_cons, List.filter_nil]
  rw [show isPostForm (panelDom p) = false from rfl,
    show isPostForm (panelHeadingNode p) = false from rfl,
    show isPostForm (panelH3Node p) = false from rfl,
    show isPostForm (Node.text p.ticketType) = false from rfl,
    show isPostForm (panelBodyNode p) = false from rfl,
    show isPostForm (panelH2Node p) = false from rfl,
    show isPostForm (Node.text p.price) = false from rfl,
    show isPostForm (panelFormNode p) = true from isPostForm_panelFormNode p,
    show isPostForm (panelInputNode p) = false from rfl,
    show isPostForm panelButtonNode = false from rfl,
    show isPostForm (Node.text "Buy") = false from rfl]
  rfl

theorem filter_isPostForm_panels (par : Node) :
    ∀ ps : List PanelData,
      (childDescendants par (ps.map panelDom)).filter (fun q => isPostForm q.1) =
        ps.map (fun p => (panelFormNode p, panelBodyNode p)) := by
  intro ps
  induction ps with
  | nil => rfl
  | cons p rest ih =>
      rw [show (p :: rest).map panelDom = [panelDom p] ++ rest.map panelDom from rfl,
        childDescendants_append, List.filter_append, filter_isPostForm_panel, ih]
      rfl

theorem filter_ticketClass_panel (par : Node) (p : PanelData) :
    (childDescendants par [panelDom p]).filter (fun q => isTicketClassElem q.1) = [] := by
  rw [panelDom_descendants]
  simp only [List.filter_cons, List.filter_nil]
  rw [show isTicketClassElem (panelDom p) = false from rfl,
    show isTicketClassElem (panelHeadingNode p) = false from rfl,
    show isTicketClassElem (panelH3Node p) = false from rfl,
    show isTicketClassElem (Node.text p.ticketType) = false from rfl,
    show isTicketClassElem (panelBodyNode p) = false from rfl,
    show isTicketClassElem (panelH2Node p) = false from rfl,
    show isTicketClassElem (Node.text p.price) = false from rfl,
    show isTicketClassElem (panelFormNode p) = false from rfl,
    show isTicketClassElem (panelInputNode p) = false from rfl,
    show isTicketClassElem panelButtonNode = false from rfl,
    show isTicketClassElem (Node.text "Buy") = false from rfl]
  rfl

theorem filter_ticketClass_panels (par : Node) :
    ∀ ps : List PanelData,
      (childDescendants par (ps.map panelDom)).filter (fun q => isTicketClassElem q.1) =
        [] := by
  intro ps
  induction ps with
  | nil => rfl
  | cons p rest ih =>
      rw [show (p :: rest).map panelDom = [panelDom p] ++ rest.map panelDom from rfl,
        childDescendants_append, List.filter_append, filter_ticketClass_panel, ih]
      rfl

theorem filter_cartLink_panel (par : Node) (p : PanelData) :
    (childDescendants par [panelDom p]).filter (fun q => isCartLink q.1) = [] := by
  rw [panelDom_descendants]
  simp only [List.filter_cons, List.filter_nil]
  rw [show isCartLink (panelDom p) = false from rfl,
    show isCartLink (panelHeadingNode p) = false from rfl,
    show isCartLink (panelH3Node p) = false from rfl,
    show isCartLink (Node.text p.ticketType) = false from rfl,
    show isCartLink (panelBodyNode p) = false from rfl,
    show isCartLink (panelH2Node p) = false from rfl,
    show isCartLink (Node.text p.price) = false from rfl,
    show isCartLink (panelFormNode p) = false from rfl,
    show isCartLink (panelInputNode p) = false from rfl,
    show isCartLink panelButtonNode = false from rfl,
    show isCartLink (Node.text "Buy") = false from rfl]
  rfl

theorem filter_cartLink_panels (par : Node) :
    ∀ ps : List PanelData,
      (childDescendants par (ps.map panelDom)).filter (fun q => isCartLink q.1) = [] := by
  intro ps
  induction ps with
  | nil => rfl
  | cons p rest ih =>
      rw [show (p :: rest).map panelDom = [panelDom p] ++ rest.map panelDom from rfl,
        childDescendants_append, List.filter_append, filter_cartLink_panel, ih]
      rfl

theorem page_filter_isPostForm (ps : List PanelData) :
    (nodeDescendants (marketplacePageDom ps)).filter (fun q => isPostForm q.1) =
      ps.map (fun p => (panelFormNode p, panelBodyNode p)) := by
  simp only [marketplacePageDom, nodeDescendants]
  rw [childDescendants_append, List.filter_append, filter_isPostForm_panels]
  rw [show (childDescendants
      (.elem "main" [("id", "content")] (pageHeaderNodes ++ ps.map panelDom))
      pageHeaderNodes).filter (fun q => isPostForm q.1) = [] from by
    simp only [pageHeaderNodes, childDescendants, nodeDescendants, pageTitleNode,
      filterFormNode, filterButtonNode, hrNode]
    rfl]
  rfl

theorem page_filter_ticketClass (ps : List PanelData) :
    (nodeDescendants (marketplacePageDom ps)).filter (fun q => isTicketClassElem q.1) =
      [] := by
  simp only [marketplacePageDom, nodeDescendants]
  rw [childDescendants_append, List.filter_append, filter_ticketClass_panels]
  rw [show (childDescendants
      (.elem "main" [("id", "content")] (pageHeaderNodes ++ ps.map panelDom))
      pageHeaderNodes).filter (fun q => isTicketClassElem q.1) = [] from by
    simp only [pageHeaderNodes, childDescendants, nodeDescendants, pageTitleNode,
      filterFormNode, filterButtonNode, hrNode]
    rfl]
  rfl

theorem page_filter_cartLink (ps : List PanelData) :
    (nodeDescendants (marketplacePageDom ps)).filter (fun q => isCartLink q.1) = [] := by
  simp only [marketplacePageDom, nodeDescendants]
  rw [childDescendants_append, List.filter_append, filter_cartLink_panels]
  rw [show (childDescendants
      (.elem "main" [("id", "content")] (pageHeaderNodes ++ ps.map panelDom))
      pageHeaderNodes).filter (fun q => isCartLink q.1) = [] from by
    simp only [pageHeaderNodes, childDescendants, nodeDescendants, pageTitleNode,
      filterFormNode, filterButtonNode, hrNode]
    rfl]
  rfl

theorem parse_form_listing_panel (p : PanelData) :
    parse_form_listing (panelFormNode p) (some (panelBodyNode p)) = slowPanelListing p := by
  rfl

theorem strategy1_fold_panels :
    ∀ (ps : List PanelData) (acc : List TicketListing),
      (ps.map (fun p => (panelFormNode p, panelBodyNode p))).foldl
        (fun acc q =>
          if (nodeClasses q.1).contains "form-inline".toList then acc
          else if (buyControl q.1).isSome then acc ++ [parse_form_listing q.1 (some q.2)]
          else acc) acc = acc ++ ps.map slowPanelListing := by
  intro ps
  induction ps with
  | nil => intro acc; simp
  | cons p rest ih =>
      intro acc
      rw [List.map_cons, List.foldl_cons]
      rw [show (if (nodeClasses (panelFormNode p, panelBodyNode p).1).contains
            "form-inline".toList then acc
          else if (buyControl (panelFormNode p, panelBodyNode p).1).isSome then
            acc ++ [parse_form_listing (panelFormNode p, panelBodyNode p).1
              (some (panelFormNode p, panelBodyNode p).2)]
          else acc) = acc ++ [slowPanelListing p] from by
        rw [show (nodeClasses (panelFormNode p, panelBodyNode p).1).contains
            "form-inline".toList = false from rfl]
        rw [show (buyControl (panelFormNode p, panelBodyNode p).1).isSome = true from rfl]
        simp only [if_false, if_true, Bool.false_eq_true]
        rw [parse_form_listing_panel]]
      rw [ih]
      simp

/-- On a page of the expected shape, the structural parse yields exactly the
panel listings. -/
theorem extract_listings_dom_page (ps : List PanelData) :
    extract_listings_dom (marketplacePageDom ps) = ps.map slowPanelListing := by
  simp only [extract_listings_dom]
  rw [page_filter_isPostForm, page_filter_ticketClass, page_filter_cartLink,
    strategy1_fold_panels ps []]
  simp

/-! ### C9: fast/slow path equivalence -/

set_option maxRecDepth 8192 in
/-- C9: on every page of the expected listing-panel shape (well-formed panel
fields), the fast-path regex extraction and the full structural parse
produce the same number of listings, and the first listing of each carries
the same form action. -/
theorem fast_slow_listing_equivalence (ps : List PanelData)
    (hwf : ps.all panelWf = true) :
    (extract_listings_fast (marketplacePageHtml ps)).length =
      (extract_listings_dom (marketplacePageDom ps)).length ∧
    ((extract_listings_fast (marketplacePageHtml ps)).head?).map TicketListing.form_action =
      ((extract_listings_dom (marketplacePageDom ps)).head?).map
        TicketListing.form_action := by
  have hwf' : ∀ p ∈ ps, panelWf p = true := fun p hp => List.all_eq_true.mp hwf p hp
  rw [extract_listings_dom_page]
  cases ps with
  | nil =>
      have hfast : extract_listings_fast (marketplacePageHtml []) = [] := by
        simp only [extract_listings_fast]
        rw [ticketPanelScan_page [] (by intro p hp; cases hp)]
        simp only [List.map_nil, List.isEmpty_nil, if_true]
        decide
      rw [hfast]
      exact ⟨rfl, rfl⟩
  | cons p rest =>
      rw [extract_listings_fast_page _ hwf' (by simp)]
      constructor
      · simp
      · simp [fastPanelListing, slowPanelListing]

/-- Witness for C9 on a one-panel sample page. -/
theorem fast_slow_listing_equivalence_witness :
    (extract_listings_fast (marketplacePageHtml
        [⟨"Ticket – Type A", "190.00 EUR", "/event/secondhand/buy/abc123/",
          "tok-4242aaaa"⟩])).length =
      (extract_listings_dom (marketplacePageDom
        [⟨"Ticket – Type A", "190.00 EUR", "/event/secondhand/buy/abc123/",
          "tok-4242aaaa"⟩])).length ∧
    ((extract_listings_fast (marketplacePageHtml
        [⟨"Ticket – Type A", "190.00 EUR", "/event/secondhand/buy/abc123/",
          "tok-4242aaaa"⟩])).head?).map TicketListing.form_action =
      ((extract_listings_dom (marketplacePageDom
        [⟨"Ticket – Type A", "190.00 EUR", "/event/secondhand/buy/abc123/",
          "tok-4242aaaa"⟩])).head?).map TicketListing.form_action :=
  fast_slow_listing_equivalence
    [⟨"Ticket – Type A", "190.00 EUR", "/event/secondhand/buy/abc123/", "tok-4242aaaa"⟩]
    (by decide)

/-! ### C10: availability flag matches the listings sequence -/

theorem parseSlowPath_availability (soup : Node) :
    (parseSlowPath soup).tickets_available =
      !(parseSlowPath soup).listings.isEmpty := by
  simp only [parseSlowPath]
  by_cases hnt : slowNoTickets soup = true
  · rw [if_pos hnt]; rfl
  · rw [if_neg hnt]
    cases extract_listings_dom soup <;> simp

/-- C10: for every input and every behaviour of the external document
parser, `parse_secondhand_page` reports tickets available exactly when its
listings sequence is non-empty. -/
theorem parse_availability_iff_listings (bs : String → Node) (html : String) :
    (parse_secondhand_page bs html).tickets_available =
      !(parse_secondhand_page bs html).listings.isEmpty := by
  simp only [parse_secondhand_page]
  by_cases h1 : hasSub ceq noTicketsShortMarker html.toList = true
  · rw [if_pos h1]; rfl
  · rw [if_neg h1]
    by_cases h2 : hasSub ceq buyUrlMarker html.toList = true
    · rw [if_pos h2]
      cases hfast : extract_listings_fast html.toList with
      | nil => exact parseSlowPath_availability (bs html)
      | cons l ls => simp
    · rw [if_neg h2]
      exact parseSlowPath_availability (bs html)

/-! ### C5: "no inventory" fast path -/

/-- C5: any page containing the "No tickets available" marker is classified
unavailable with zero listings, with the anti-forgery token taken from the
single lightweight pattern scan of the raw text; the result does not depend
on the document-tree oracle at all (no full parse), and whenever the pattern
scan matches, its token is the one returned. -/
theorem parse_no_tickets_fast_path (bs : String → Node) (html : String)
    (h : hasSub ceq noTicketsShortMarker html.toList = true) :
    parse_secondhand_page bs html =
      { tickets_available := false, listings := [],
        csrf_token := csrfRegexSearch html.toList, error_message := none } ∧
    (∀ bs2 : String → Node, parse_secondhand_page bs2 html = parse_secondhand_page bs html) ∧
    (∀ tok : List Char, csrfRegexSearch html.toList = some tok →
       (parse_secondhand_page bs html).csrf_token = some tok) := by
  refine ⟨?_, ?_, ?_⟩
  · rw [parse_secondhand_page, if_pos h]
  · intro bs2
    rw [parse_secondhand_page, if_pos h, parse_secondhand_page, if_pos h]
  · intro tok htok
    rw [parse_secondhand_page, if_pos h]
    simpa using htok

/-- Witness for C5 on a concrete "no tickets" page carrying an anti-forgery
hidden field: availability is false, no listings, and the token comes from
the pattern scan even though the tree oracle returns an empty document. -/
theorem parse_no_tickets_fast_path_witness :
    parse_secondhand_page (fun _ => Node.text "")
        ("<div class=\"alert alert-warning\">No tickets available at the moment</div>" ++
         "<input name=\"csrfmiddlewaretoken\" value=\"tok123\">") =
      { tickets_available := false, listings := [],
        csrf_token := csrfRegexSearch
          ("<div class=\"alert alert-warning\">No tickets available at the moment</div>" ++
           "<input name=\"csrfmiddlewaretoken\" value=\"tok123\">").toList,
        error_message := none } ∧
    (parse_secondhand_page (fun _ => Node.text "")
        ("<div class=\"alert alert-warning\">No tickets available at the moment</div>" ++
         "<input name=\"csrfmiddlewaretoken\" value=\"tok123\">")).csrf_token =
      some "tok123".toList :=
  ⟨(parse_no_tickets_fast_path (fun _ => Node.text "") _ (by decide)).1,
   (parse_no_tickets_fast_path (fun _ => Node.text "") _ (by decide)).2.2
     ("tok123".toList) (by decide)⟩

end PretixRace
